import Mathlib

/-!
Verification of the mini-react rendering engine: a shallow embedding of the
template compiler (`template-processor.ts`), the reconciliation engine
(the current `Renderer`), the state manager (`state-manager.ts`), the
effect manager (`EffectManager`) and the render-context orchestrator
(`FrameworkOrchestrator`), together with theorems settling the frozen
claims about them.
-/

namespace MiniReact

/-! ## Association lists modelling JS `Map` (insertion order preserved) -/

/-- `Map.get`: first binding for the key (keys are unique because `alSet`
replaces in place, like `Map.set`). -/
def alGet {κ α : Type} [DecidableEq κ] (l : List (κ × α)) (k : κ) : Option α :=
  (l.find? (fun p => p.1 = k)).map (·.2)

/-- `Map.set`: replace the value in place if the key is present, else append. -/
def alSet {κ α : Type} [DecidableEq κ] (l : List (κ × α)) (k : κ) (v : α) :
    List (κ × α) :=
  if l.any (fun p => p.1 = k) then
    l.map (fun p => if p.1 = k then (k, v) else p)
  else
    l ++ [(k, v)]

/-- `Map.delete`. -/
def alDelete {κ α : Type} [DecidableEq κ] (l : List (κ × α)) (k : κ) :
    List (κ × α) :=
  l.filter (fun p => p.1 ≠ k)

/-- `Map.has`. -/
def alHas {κ α : Type} [DecidableEq κ] (l : List (κ × α)) (k : κ) : Bool :=
  l.any (fun p => p.1 = k)

/-- The keys of a map in insertion order. -/
def alKeys {κ α : Type} (l : List (κ × α)) : List κ :=
  l.map (·.1)

/-- `new Set([...])`: iterate keeping the first occurrence of each element. -/
def dedupFirstAux {κ : Type} [DecidableEq κ] (seen : List κ) : List κ → List κ
  | [] => []
  | x :: xs =>
    if x ∈ seen then dedupFirstAux seen xs
    else x :: dedupFirstAux (x :: seen) xs

/-- `new Set([...])` over keys: deduplicate keeping the first occurrence. -/
def dedupFirst {κ : Type} [DecidableEq κ] (l : List κ) : List κ :=
  dedupFirstAux [] l

/-- JS `String.prototype.trim`: strip leading and trailing whitespace
(written over the character list so that it is kernel-evaluable). -/
def jsTrim (s : String) : String :=
  String.mk (((s.toList.dropWhile Char.isWhitespace).reverse.dropWhile
    Char.isWhitespace).reverse)

/-! ## JavaScript values

JS runtime values as far as the engine inspects them: primitives carry their
content, objects and functions are reference ids (so `===` / `Object.is` is
structural equality of this encoding). -/

inductive JSValue where
  | undef
  | jsNull
  | bool (b : Bool)
  | int (n : Int)
  | str (s : String)
  | fnRef (id : Nat)
  | nodeRef (id : Nat)
  | objRef (id : Nat)
  deriving DecidableEq, Repr

/-- JS `String(v)` coercion for the values above. -/
def jsToString : JSValue → String
  | .undef => "undefined"
  | .jsNull => "null"
  | .bool true => "true"
  | .bool false => "false"
  | .int n => toString n
  | .str s => s
  | .fnRef _ => "function"
  | .nodeRef _ => "[object Node]"
  | .objRef _ => "[object Object]"

/-- JS `String(v ?? '')`: nullish values coerce to the empty string. -/
def jsToStringNullish : JSValue → String
  | .undef => ""
  | .jsNull => ""
  | v => jsToString v

/-- JS `typeof v === 'function'`. -/
def JSValue.isFunction : JSValue → Bool
  | .fnRef _ => true
  | _ => false

/-! ## Claim C1: attribute parts, compiler to renderer

`createAttributeMetadata` (template-processor.ts) builds the part's stored
value; `applyAttributePart` and `updateAttribute` (current Renderer) consume
it. An element attribute's state is `Option String`: `none` when absent,
`some v` when present with value `v`. -/

/-- The `value` field produced by `TemplateProcessor.createAttributeMetadata`:
the source stores `String(expression)`. -/
def createAttributeMetadataValue (expression : JSValue) : JSValue :=
  .str (jsToString expression)

/-- The attribute state `applyAttributePart` (Renderer, mount path) leaves on
the element for a part value: boolean `true` sets the empty string, boolean
`false` and nullish values remove, anything else sets `String(value)`. -/
def applyAttributePart (value : JSValue) : Option String :=
  match value with
  | .bool true => some ""
  | .bool false => none
  | .jsNull => none
  | .undef => none
  | v => some (jsToString v)

/-- The attribute state `updateAttribute` (Renderer, update path) leaves on
the element, given the currently set attribute `current`: same coercion rule,
with a `getAttribute` comparison skipping the write when equal. -/
def updateAttribute (current : Option String) (value : JSValue) : Option String :=
  match value with
  | .bool true => some ""
  | .bool false => none
  | .jsNull => none
  | .undef => none
  | v =>
    let newValue := jsToString v
    if current = some newValue then current else some newValue

/-- Whether `updateAttribute` performs a host mutation (`setAttribute` or
`removeAttribute` call) for the given current state and part value. -/
def updateAttributeMutates (current : Option String) (value : JSValue) : Bool :=
  match value with
  | .bool _ => true
  | .jsNull => true
  | .undef => true
  | v => current ≠ some (jsToString v)

/-- End-to-end mount behaviour for an attribute expression: the compiler's
stored value fed to `applyAttributePart`. -/
def mountAttributeEndToEnd (expression : JSValue) : Option String :=
  applyAttributePart (createAttributeMetadataValue expression)

/-- End-to-end update behaviour for an attribute expression. -/
def updateAttributeEndToEnd (current : Option String) (expression : JSValue) :
    Option String :=
  updateAttribute current (createAttributeMetadataValue expression)

/-! ## Claim C10: the template compiler's markup construction

`TemplateProcessor.process` walks static segments and expressions pairwise,
trimming each static segment, classifying the part from the trimmed segment's
trailing text, and appending segment + placeholder to the markup. -/

inductive PartKind where
  | event
  | attribute
  | content
  deriving DecidableEq, Repr

/-- `createContentPlaceholder` from template-processor.ts. -/
def createContentPlaceholder (i : Nat) : String :=
  "<!--placeholder-" ++ toString i ++ "-->"

/-- `createExpressionPlaceholder` from template-processor.ts. -/
def createExpressionPlaceholder (i : Nat) : String :=
  "placeholder-" ++ toString i

/-- Modelled from the spec: `EVENT_REGEX` lives in the missing `constants.ts`;
per the spec an event position is "an identifier of the documented
event-prefix form followed by a binding marker", i.e. the trimmed segment ends
in an `on`-prefixed identifier followed by `="` (as in `onclick="`). The
captured group is the event name. -/
def eventRegexMatch (s : String) : Option String :=
  let cs := s.toList.reverse
  if cs.take 2 = ['"', '='] then
    let identList := ((cs.drop 2).takeWhile Char.isAlpha).reverse
    if identList.take 2 = ['o', 'n'] ∧ identList.length > 2 then
      some (String.mk identList)
    else none
  else none

/-- Modelled from the spec: `ATTRIBUTE_REGEX` lives in the missing
`constants.ts`; an attribute position is "an identifier followed by `=\"`" at
the end of the trimmed segment. The captured group is the attribute name. -/
def attributeRegexMatch (s : String) : Option String :=
  let cs := s.toList.reverse
  if cs.take 2 = ['"', '='] then
    let identList := ((cs.drop 2).takeWhile (fun c => c.isAlphanum ∨ c = '-')).reverse
    if identList.length > 0 then some (String.mk identList) else none
  else none

/-- `TemplateProcessor.createDynamicPart`: classify by the trimmed trailing
static text — event pattern first, then attribute pattern, else content. -/
def classifySegment (s : String) : PartKind :=
  if (eventRegexMatch s).isSome then .event
  else if (attributeRegexMatch s).isSome then .attribute
  else .content

/-- The placeholder token appended for a part: content parts get a marker
comment, attribute/event parts a marker attribute value. -/
def placeholderFor (k : PartKind) (i : Nat) : String :=
  match k with
  | .content => createContentPlaceholder i
  | _ => createExpressionPlaceholder i

/-- The loop body of `TemplateProcessor.processExpressions`: for each
segment/expression pair, trim the segment, assert it nonempty, classify,
check the event-handler assertion, and append `segment ++ placeholder`. -/
def processExpressionsLoop : List (String × JSValue) → Nat → Except String String
  | [], _ => .ok ""
  | (s, e) :: rest, i =>
    let staticString := jsTrim s
    if staticString = "" then .error "Invalid HTML segment"
    else
      let kind := classifySegment staticString
      if kind = .event ∧ ¬e.isFunction then .error "Event handler must be a function"
      else do
        let tail ← processExpressionsLoop rest (i + 1)
        .ok (staticString ++ placeholderFor kind i ++ tail)

/-- `TemplateProcessor.process`: the markup (`staticHtml`) it produces, or the
assertion failure it raises. The final static segment is appended trimmed. -/
def process (staticStrings : List String) (expressions : List JSValue) :
    Except String String :=
  if staticStrings.length = 0 then .error "Static strings array cannot be empty"
  else if staticStrings.length ≠ expressions.length + 1 then
    .error "Invalid template structure"
  else do
    let body ← processExpressionsLoop (staticStrings.zip expressions) 0
    .ok (body ++ (((staticStrings.get? expressions.length).map jsTrim).getD ""))

/-- Spec-side markup formula, written from the spec's words: every static
segment trimmed of leading and trailing whitespace, concatenated with the
part placeholders in order, the final segment trimmed as well. Stated
independently of the loop above via an indexed join. -/
def markupSpec (staticStrings : List String) (expressions : List JSValue) : String :=
  (((staticStrings.zip expressions).enumFrom 0).map
      (fun p => jsTrim p.2.1 ++ placeholderFor (classifySegment (jsTrim p.2.1)) p.1)).foldr
    (fun a b => a ++ b) ""
  ++ (((staticStrings.get? expressions.length).map jsTrim).getD "")

/-! ## Claim C2: render-context stack and `triggerComponentRerender`

The `FrameworkOrchestrator` keeps a process-wide stack of render contexts;
`Renderer.triggerComponentRerender` pushes a context, invokes the stored
component function inside `try`/`catch`/`finally` (the `catch` block is
empty, the `finally` pops the context), and only calls `update` when a valid
template was produced. -/

structure RenderContext where
  instanceId : Nat
  hookIndex : Nat
  deriving DecidableEq, Repr

/-- `FrameworkOrchestrator.startComponentRender`: push a fresh context
(stack top is the list's last element, as with JS array push/pop). -/
def startComponentRender (stack : List RenderContext) (instanceId : Nat) :
    List RenderContext :=
  stack ++ [⟨instanceId, 0⟩]

/-- `FrameworkOrchestrator.finishComponentRender`: assert the stack nonempty,
then pop. -/
def finishComponentRender (stack : List RenderContext) :
    Except String (List RenderContext) :=
  if stack.isEmpty then .error "Component context stack should contain something"
  else .ok stack.dropLast

/-- The state `triggerComponentRerender` acts on: the context stack plus the
mounted instance's recorded data (`processedTemplate`, `dynamicNodeMap`,
`eventListenerMap`, `childInstanceMap` and the host tree), abstracted as a
single value of type `Inst` since the throwing path must leave all of it
untouched whatever it is. -/
structure RerenderState (PT Inst : Type) where
  contextStack : List RenderContext
  inst : Inst
  deriving DecidableEq, Repr

/-- `Renderer.triggerComponentRerender` (current Renderer): the component
function either throws (`Except.error`, which also covers the in-`try` throw
for an invalid template) or returns a template. The empty `catch` swallows
the error, the `finally` always pops the context, and `update` runs only on
a produced template. The outer `Except` is the exception the caller of the
state setter would observe. -/
def triggerComponentRerender {E PT Inst : Type} (update : Inst → PT → Inst)
    (componentFunction : Unit → Except E PT) (instanceId : Nat)
    (st : RerenderState PT Inst) : Except String (RerenderState PT Inst) :=
  let stack1 := startComponentRender st.contextStack instanceId
  match componentFunction () with
  | .error _ => do
    let stack2 ← finishComponentRender stack1
    .ok ⟨stack2, st.inst⟩
  | .ok t => do
    let stack2 ← finishComponentRender stack1
    .ok ⟨stack2, update st.inst t⟩

/-- A concrete instance record carrying the four fields the claim names,
used to instantiate `Inst` in the witness. -/
structure InstanceRecordC2 where
  processedTemplate : List (Nat × PartKind)
  dynamicNodeMap : List (Nat × Nat)
  eventListenerMap : List (Nat × (Nat × String × Nat))
  childInstanceMap : List (Nat × Nat)
  deriving DecidableEq, Repr

/-! ## Claims C3 and C7: the live `StateManager` (state-manager.ts)

The state store maps `instanceId → hookIndex → StateRecord.value` (the
record's `instance` back-pointer is not modelled; it only witnesses the
registry lookup, which is modelled explicitly). JS functions are `fnRef` ids
applied through a function table. -/

/-- Apply a JS function value through the function table (only ever used
under a `typeof f === 'function'` guard in the source). -/
def applyJS (tbl : Nat → JSValue → JSValue) (f arg : JSValue) : JSValue :=
  match f with
  | .fnRef id => tbl id arg
  | _ => (.undef : JSValue)

/-- `StateManager.registerState` (state-manager.ts lines 15-64): ensure the
per-instance map exists, compute the initial value (an updater is applied to
the slot's current stored value, `undefined` when absent), and return
`stateRecord?.value ?? value` — note that nothing is written into the slot.
Returns (value returned to the component, store afterwards). -/
def registerState (tbl : Nat → JSValue → JSValue) (instanceId hookIndex : Nat)
    (initialValue : JSValue) (store : List (Nat × List (Nat × JSValue))) :
    JSValue × List (Nat × List (Nat × JSValue)) :=
  let store1 := if alHas store instanceId then store else alSet store instanceId []
  let stateInstance := (alGet store1 instanceId).getD []
  let value :=
    if initialValue.isFunction then
      applyJS tbl initialValue ((alGet stateInstance hookIndex).getD .undef)
    else initialValue
  let ret :=
    match alGet stateInstance hookIndex with
    | some stored => if stored = .undef ∨ stored = .jsNull then value else stored
    | none => value
  (ret, store1)

/-- The `setState` closure created by `registerState`: resolve the mounted
instance from the registry (assertion failure when absent), lazily create the
slot record seeded with the raw initial argument, compute the next value (an
updater is applied to the current stored value), overwrite the stored value,
and call `triggerComponentRerender` — modelled by appending the instance id
to the rerender log, one entry per synchronous rerender invocation. -/
def setState (tbl : Nat → JSValue → JSValue) (registry : List Nat)
    (instanceId hookIndex : Nat) (initialValue newValue : JSValue)
    (store : List (Nat × List (Nat × JSValue))) (rerenderLog : List Nat) :
    Except String (List (Nat × List (Nat × JSValue)) × List Nat) :=
  if instanceId ∈ registry then
    let stateInstance := (alGet store instanceId).getD []
    let stateInstance1 :=
      if alHas stateInstance hookIndex then stateInstance
      else alSet stateInstance hookIndex initialValue
    let currentState := (alGet stateInstance1 hookIndex).getD .undef
    let newState :=
      if newValue.isFunction then applyJS tbl newValue currentState else newValue
    let stateInstance2 := alSet stateInstance1 hookIndex newState
    .ok (alSet store instanceId stateInstance2, rerenderLog ++ [instanceId])
  else .error "mounted instance should exist at this point"

/-- The value `setState` stores: the updater applied to the current stored
value (the lazily-seeded raw initial argument when the slot is empty), or the
new value itself. -/
def setStateNewState (tbl : Nat → JSValue → JSValue)
    (store : List (Nat × List (Nat × JSValue))) (instanceId hookIndex : Nat)
    (initialValue newValue : JSValue) : JSValue :=
  let stateInstance := (alGet store instanceId).getD []
  let stateInstance1 :=
    if alHas stateInstance hookIndex then stateInstance
    else alSet stateInstance hookIndex initialValue
  let currentState := (alGet stateInstance1 hookIndex).getD .undef
  if newValue.isFunction then applyJS tbl newValue currentState else newValue

/-- The state store `setState` leaves behind: the slot (lazily seeded if
absent) overwritten with the computed next value. -/
def setStateStoreAfter (tbl : Nat → JSValue → JSValue)
    (store : List (Nat × List (Nat × JSValue))) (instanceId hookIndex : Nat)
    (initialValue newValue : JSValue) : List (Nat × List (Nat × JSValue)) :=
  let stateInstance := (alGet store instanceId).getD []
  let stateInstance1 :=
    if alHas stateInstance hookIndex then stateInstance
    else alSet stateInstance hookIndex initialValue
  alSet store instanceId
    (alSet stateInstance1 hookIndex
      (setStateNewState tbl store instanceId hookIndex initialValue newValue))

/-! ## Claim C6: the `EffectManager` -/

/-- `shallowCompareArrays` from the EffectManager source: undefined operands
compare by reference, arrays by length plus pairwise `Object.is`. -/
def shallowCompareArrays (arr1 arr2 : Option (List JSValue)) : Bool :=
  match arr1, arr2 with
  | none, none => true
  | none, some _ => false
  | some _, none => false
  | some a, some b =>
    if a.length ≠ b.length then false
    else (a.zip b).all (fun p => p.1 = p.2)

/-- One effect slot's record. The callback is a reference id; running it
through `cbRun` yields the cleanup it returns (`none` when the return value
is not a function). -/
structure EffectRecord where
  needExecuting : Bool
  callbackId : Nat
  deps : Option (List JSValue)
  previousDeps : Option (List JSValue)
  cleanupId : Option Nat
  deriving DecidableEq, Repr

/-- `EffectManager.registerEffect`, restricted to one slot: first
registration stores a fresh record flagged to run; later registrations
compute `shouldExecute` against the previously registered `deps` field,
refresh callback/deps, and accumulate `needExecuting` with an or. -/
def registerEffectRecord (old : Option EffectRecord) (cb : Nat)
    (deps : Option (List JSValue)) : EffectRecord :=
  match old with
  | none =>
    { needExecuting := true, callbackId := cb, deps := deps
      previousDeps := none, cleanupId := none }
  | some r =>
    let shouldExecute :=
      if deps.isNone then true
      else !(shallowCompareArrays deps r.deps)
    { r with callbackId := cb, deps := deps
             needExecuting := r.needExecuting || shouldExecute }

/-- `EffectManager.runEffects`, restricted to one slot: a flagged record has
its previous cleanup invoked, its callback run (return value stored as the
new cleanup when invokable), `needExecuting` cleared and `deps` committed as
`previousDeps`; an unflagged record is untouched. -/
def runEffectRecord (cbRun : Nat → Option Nat) (r : EffectRecord) : EffectRecord :=
  if r.needExecuting then
    { r with cleanupId := cbRun r.callbackId, needExecuting := false
             previousDeps := r.deps }
  else r

/-- The effect records reachable through the manager's API: created by a
first registration, then evolved by re-registrations and runs. -/
inductive EffectReachable (cbRun : Nat → Option Nat) : EffectRecord → Prop where
  | init (cb : Nat) (deps : Option (List JSValue)) :
      EffectReachable cbRun (registerEffectRecord none cb deps)
  | register (r : EffectRecord) (cb : Nat) (deps : Option (List JSValue)) :
      EffectReachable cbRun r → EffectReachable cbRun (registerEffectRecord (some r) cb deps)
  | run (r : EffectRecord) :
      EffectReachable cbRun r → EffectReachable cbRun (runEffectRecord cbRun r)

/-- The claim's `shouldRun`, written from its words: the deps argument is
absent, or fails the shallow comparison against the slot's previously
committed deps (the `previousDeps` recorded when the effect last ran). -/
def specShouldRun (deps : Option (List JSValue)) (r : EffectRecord) : Bool :=
  deps.isNone || !(shallowCompareArrays deps r.previousDeps)

/-! ## Claim C8: `Renderer.unmount`

A mounted instance is a tree: `children` are the `childInstanceMap` values
and `listChildren` the child instances of all `listAnchorMap` entries, both
in map insertion order. `unmount` recursively unmounts both groups first,
then detaches the instance's listeners, removes its root nodes, releases its
state records and removes it from the registry. Host effects are recorded as
a teardown trace; store effects act on the registry/state/effect stores. -/

structure ListenerRecord where
  elementId : Nat
  eventName : String
  handlerId : Nat
  deriving DecidableEq, Repr

inductive UInst where
  | mk (id : Nat) (listeners : List ListenerRecord) (rootNodes : List Nat)
      (children : List UInst) (listChildren : List UInst)

def UInst.id : UInst → Nat
  | .mk i _ _ _ _ => i

def UInst.listeners : UInst → List ListenerRecord
  | .mk _ ls _ _ _ => ls

def UInst.rootNodes : UInst → List Nat
  | .mk _ _ rs _ _ => rs

inductive TeardownEvent where
  | detachListener (instId : Nat) (l : ListenerRecord)
  | removeRootNode (instId nodeId : Nat)
  | releaseState (instId : Nat)
  | removeFromRegistry (instId : Nat)
  deriving DecidableEq, Repr

mutual

/-- The sequence of teardown actions `Renderer.unmount` performs for one
instance: recursive unmount of `childInstanceMap` entries, then of
`listAnchorMap` child instances, then listener detachment, root-node removal,
state release (`cleanUpStateForInstance`) and registry removal
(`removeMountedInstance`). -/
def unmountTrace : UInst → List TeardownEvent
  | .mk i ls roots cs lcs =>
    unmountTraceList cs ++ unmountTraceList lcs
      ++ ls.map (fun l => .detachListener i l)
      ++ roots.map (fun n => .removeRootNode i n)
      ++ [.releaseState i, .removeFromRegistry i]

def unmountTraceList : List UInst → List TeardownEvent
  | [] => []
  | x :: xs => unmountTrace x ++ unmountTraceList xs

end

/-- The process-wide stores `unmount` touches, each as the list of instance
ids currently holding entries. -/
structure Stores where
  registry : List Nat
  stateStore : List Nat
  effectStore : List Nat
  deriving DecidableEq, Repr

mutual

/-- The store effect of `Renderer.unmount`: children then list children
recursively, then `stateManager.cleanUpStateForInstance(id)` and
`frameworkOrchestrator.removeMountedInstance(id)` for the instance itself.
The source never calls `EffectManager.cleanUpEffectsForInstance`. -/
def unmountInst : UInst → Stores → Stores
  | .mk i _ls _roots cs lcs, s =>
    let s1 := unmountInstList cs s
    let s2 := unmountInstList lcs s1
    let s3 : Stores := { s2 with stateStore := s2.stateStore.filter (fun x => x ≠ i) }
    { s3 with registry := s3.registry.filter (fun x => x ≠ i) }

def unmountInstList : List UInst → Stores → Stores
  | [], s => s
  | x :: xs, s => unmountInstList xs (unmountInst x s)

end

mutual

/-- The ids of the instance subtree in postorder: both child groups first,
the instance itself last. -/
def postorderIds : UInst → List Nat
  | .mk i _ _ cs lcs => postorderIdsList cs ++ postorderIdsList lcs ++ [i]

def postorderIdsList : List UInst → List Nat
  | [] => []
  | x :: xs => postorderIds x ++ postorderIdsList xs

end

/-- The instance ids whose registry removal appears in a teardown trace, in
trace order. -/
def registryRemovals (tr : List TeardownEvent) : List Nat :=
  tr.filterMap (fun e => match e with
    | .removeFromRegistry i => some i
    | _ => none)

/-! ## Claim C5: list content update (whole-range replacement)

The current Renderer's `updateContent`, list branch with existing anchors:
`clearBetweenAnchors` removes every host node strictly between the anchors,
the previous child instances are unmounted, and `renderAndInsertListItems`
materializes every new item freshly, in array order, before the end anchor.
Host nodes and instances are allocation ids; every creation draws a fresh id
from the allocator, so freshness/no-reuse is id arithmetic. -/

inductive ListItem where
  | template (nodeCount : Nat)
  | comp (fnId propsId rootCount : Nat)
  | rawNode (nodeId : Nat)
  | scalar (v : JSValue)
  deriving DecidableEq, Repr

structure AllocSt where
  nextNode : Nat
  nextInst : Nat
  deriving DecidableEq, Repr

/-- How many host nodes one item contributes between the anchors. -/
def itemNodeCount : ListItem → Nat
  | .template n => n
  | .comp _ _ r => r
  | .rawNode _ => 1
  | .scalar _ => 1

/-- How many child instances one item contributes (only `ComponentDefinition`
items are mounted and pushed onto `childInstances`). -/
def itemCompCount : ListItem → Nat
  | .comp _ _ _ => 1
  | _ => 0

/-- One iteration of the `renderAndInsertListItems` loop: a
`ProcessedTemplate` item's markup is parsed into fresh fragment nodes; a
`ComponentDefinition` is mounted into a temporary container (fresh instance,
fresh root nodes); a raw host node is inserted as `cloneNode(true)` (a fresh
copy); anything else becomes a fresh text node. Returns (nodes appended to
the fragment, child instance ids pushed, allocator afterwards). -/
def materializeItem (a : AllocSt) : ListItem → List Nat × List Nat × AllocSt
  | .template n =>
    (List.range' a.nextNode n, [], { a with nextNode := a.nextNode + n })
  | .comp _ _ r =>
    (List.range' a.nextNode r, [a.nextInst],
      { nextNode := a.nextNode + r, nextInst := a.nextInst + 1 })
  | .rawNode _ => ([a.nextNode], [], { a with nextNode := a.nextNode + 1 })
  | .scalar _ => ([a.nextNode], [], { a with nextNode := a.nextNode + 1 })

/-- `Renderer.renderAndInsertListItems`: materialize the items left to right,
collecting fragment nodes and child instances in array order; the fragment is
then inserted before the insertion point. -/
def renderAndInsertListItems : List ListItem → AllocSt → List Nat × List Nat × AllocSt
  | [], a => ([], [], a)
  | it :: rest, a =>
    ((materializeItem a it).1
       ++ (renderAndInsertListItems rest (materializeItem a it).2.2).1,
     (materializeItem a it).2.1
       ++ (renderAndInsertListItems rest (materializeItem a it).2.2).2.1,
     (renderAndInsertListItems rest (materializeItem a it).2.2).2.2)

/-- The host region one list content part owns: the node ids strictly between
its start and end anchors, and the child instances recorded for it. -/
structure ListRegion where
  betweenNodes : List Nat
  childInstances : List Nat
  deriving DecidableEq, Repr

/-- `Renderer.updateContent`, array-valued new part with existing anchors:
`clearBetweenAnchors(start, end)` empties the region, `unmount(children)`
unmounts every previous child, then `renderAndInsertListItems` fills the
region with the new items. Returns (region afterwards, unmounted child
instance ids, allocator afterwards). -/
def updateContentList (region : ListRegion) (items : List ListItem) (a : AllocSt) :
    ListRegion × List Nat × AllocSt :=
  let unmounted := region.childInstances
  let r := renderAndInsertListItems items a
  ({ betweenNodes := r.1, childInstances := r.2.1 }, unmounted, r.2.2)

/-- Total host nodes the new items contribute. -/
def totalNodeCount (items : List ListItem) : Nat :=
  (items.map itemNodeCount).sum

/-- Total child instances the new items contribute. -/
def totalCompCount (items : List ListItem) : Nat :=
  (items.map itemCompCount).sum

/-! ## Claim C4: content update with a `ComponentDefinition` value

The current Renderer routes a `ComponentDefinition`-valued content update
through `renderAndInsertSingleItem`, which recovers the part index by
searching the instance's (still old) `processedTemplate.dynamicParts` for a
part whose `value` is reference-equal (`===`) to the new value, falling back
to `-1`. Component definitions are objects: `refId` is the object identity,
`fnId` the `componentFunction` identity, `propsId` the `props` identity. -/

structure CompDefC4 where
  refId : Nat
  fnId : Nat
  propsId : Nat
  deriving DecidableEq, Repr

structure ChildInstC4 where
  instId : Nat
  defn : CompDefC4
  rootNode : Nat
  deriving DecidableEq, Repr

structure InstC4 where
  template : List (Nat × CompDefC4)
  childInstanceMap : List (Int × ChildInstC4)
  dynamicNodeMap : List (Int × Nat)
  rerenderLog : List Nat
  unmountLog : List Nat
  nextInstId : Nat
  nextNodeId : Nat
  deriving DecidableEq, Repr

/-- `Renderer.renderAndInsertSingleItem`, `ComponentDefinition` branch:
recover `index` by reference search over the old template's parts (`?? -1`);
if a non-array child exists at that index with the same `componentFunction`,
mutate its stored definition's `props` and take its first root node — no
re-render is triggered; otherwise unmount whatever child sits at that index
and mount the definition fresh (fresh instance id and root node), recording
it at that same possibly `-1` index. Afterwards, when `index !== -1`, the
part's bound node is updated. Returns (`newNode`, instance afterwards). -/
def renderAndInsertSingleItemComp (value : CompDefC4) (inst : InstC4) :
    Nat × InstC4 :=
  let found := inst.template.find? (fun p => p.2.refId = value.refId)
  let index : Int :=
    match found with
    | some p => (p.1 : Int)
    | none => -1
  let step : Nat × InstC4 :=
    match alGet inst.childInstanceMap index with
    | some existingChild =>
      if existingChild.defn.fnId = value.fnId then
        let updatedChild :=
          { existingChild with defn := { existingChild.defn with propsId := value.propsId } }
        (updatedChild.rootNode,
          { inst with childInstanceMap := alSet inst.childInstanceMap index updatedChild })
      else
        let newChild : ChildInstC4 :=
          { instId := inst.nextInstId, defn := value, rootNode := inst.nextNodeId }
        (newChild.rootNode,
          { inst with
              unmountLog := inst.unmountLog ++ [existingChild.instId]
              childInstanceMap := alSet inst.childInstanceMap index newChild
              nextInstId := inst.nextInstId + 1
              nextNodeId := inst.nextNodeId + 1 })
    | none =>
      let newChild : ChildInstC4 :=
        { instId := inst.nextInstId, defn := value, rootNode := inst.nextNodeId }
      (newChild.rootNode,
        { inst with
            childInstanceMap := alSet inst.childInstanceMap index newChild
            nextInstId := inst.nextInstId + 1
            nextNodeId := inst.nextNodeId + 1 })
  if index = (-1 : Int) then step
  else
    (step.1, { step.2 with dynamicNodeMap := alSet step.2.dynamicNodeMap index step.1 })

/-- `Renderer.updateContent` for a `ComponentDefinition`-valued new part with
no list anchors at the index: look up the old bound node, skip the
non-definition unmount guard, run `renderAndInsertSingleItem`, and rebind the
part's node when it changed. -/
def updateContentCompDef (loopIndex : Int) (value : CompDefC4) (inst : InstC4) :
    InstC4 :=
  match alGet inst.dynamicNodeMap loopIndex with
  | none => inst
  | some oldNode =>
    let r := renderAndInsertSingleItemComp value inst
    if r.1 ≠ oldNode then
      { r.2 with dynamicNodeMap := alSet r.2.dynamicNodeMap loopIndex r.1 }
    else r.2

/-! ## Claim C9: `Renderer.update` on unchanged dynamic parts

A faithful model of the current Renderer's update pipeline for the part
shapes the claim quantifies over: event parts, attribute parts (whose values
the compiler has string-coerced) and scalar content parts. Host nodes are
ids mapped to a node state; every host mutation the Renderer performs is
appended to an op trace (reads are not ops). -/

inductive PartC9 where
  | event (eventName : String) (handlerId : Nat)
  | attribute (attributeName : String) (value : JSValue)
  | content (value : JSValue)
  deriving DecidableEq, Repr

/-- The `value` field of a part as stored by the compiler: event parts hold
the handler function, attribute parts their (string-coerced) value, content
parts the expression value. This is what the `p.value === value` search in
`renderAndInsertSingleItem` compares against. -/
def partValue : PartC9 → JSValue
  | .event _ h => .fnRef h
  | .attribute _ v => v
  | .content v => v

/-- The part's `type` tag. -/
def partType : PartC9 → PartKind
  | .event _ _ => .event
  | .attribute _ _ => .attribute
  | .content _ => .content

structure NodeState where
  isText : Bool
  hasParent : Bool
  text : String
  attrs : List (String × String)
  deriving DecidableEq, Repr

inductive HostOp where
  | setAttribute (node : Nat) (name value : String)
  | removeAttribute (node : Nat) (name : String)
  | setTextContent (node : Nat) (text : String)
  | addEventListener (node : Nat) (eventName : String) (handlerId : Nat)
  | removeEventListener (node : Nat) (eventName : String) (handlerId : Nat)
  | replaceChild (newNode oldNode : Nat)
  | removeChild (node : Nat)
  deriving DecidableEq, Repr

structure InstC9 where
  template : List (Nat × PartC9)
  dynamicNodeMap : List (Nat × Nat)
  eventListenerMap : List (Nat × ListenerRecord)
  childInstanceIdxs : List Int
  deriving DecidableEq, Repr

structure StC9 where
  inst : InstC9
  host : List (Nat × NodeState)
  ops : List HostOp
  unmountLog : List Int
  nextNode : Nat
  deriving DecidableEq, Repr

/-- `Renderer.updateEvent`: the bound element comes from `dynamicNodeMap`;
a falsy event name or non-function handler detaches any old listener; an old
listener is reattached only when the handler reference or event name differs
(listeners are attached/detached under the name with the `on` prefix sliced
off); with no old listener the handler is attached and recorded. Paths on
which the source would dereference a missing element leave the state as is
(the source would throw there; unreachable in the states considered). -/
def updateEvent (index : Nat) (eventName : String) (handlerId : Nat)
    (st : StC9) : StC9 :=
  let element? := alGet st.inst.dynamicNodeMap index
  if eventName = "" then
    match alGet st.inst.eventListenerMap index, element? with
    | some ol, some element =>
      { st with
          ops := st.ops ++ [.removeEventListener element (ol.eventName.drop 2) ol.handlerId]
          inst := { st.inst with
            eventListenerMap := alDelete st.inst.eventListenerMap index } }
    | some _, none => st
    | none, _ => st
  else
    match alGet st.inst.eventListenerMap index with
    | some ol =>
      if ol.handlerId = handlerId ∧ ol.eventName = eventName then st
      else
        match element? with
        | some element =>
          { st with
              ops := st.ops
                ++ [.removeEventListener element (ol.eventName.drop 2) ol.handlerId,
                    .addEventListener element (eventName.drop 2) handlerId]
              inst := { st.inst with
                eventListenerMap := alSet st.inst.eventListenerMap index
                  ⟨element, eventName, handlerId⟩ } }
        | none => st
    | none =>
      match element? with
      | some element =>
        { st with
            ops := st.ops ++ [.addEventListener element (eventName.drop 2) handlerId]
            inst := { st.inst with
              eventListenerMap := alSet st.inst.eventListenerMap index
                ⟨element, eventName, handlerId⟩ } }
      | none => st

/-- `Renderer.updateAttribute`: missing element or empty attribute name is a
no-op; boolean values set the empty string or remove unconditionally; nullish
values remove unconditionally; anything else is string-coerced and written
only when it differs from the currently set attribute. A text-node target
(which the source redirects to its parent element) is unreachable for the
states considered and left as is. -/
def updateAttributePart (index : Nat) (attributeName : String) (value : JSValue)
    (st : StC9) : StC9 :=
  match alGet st.inst.dynamicNodeMap index with
  | none => st
  | some el =>
    match alGet st.host el with
    | none => st
    | some ns =>
      if ns.isText then st
      else if attributeName = "" then st
      else
        match value with
        | .bool true =>
          { st with
              host := alSet st.host el { ns with attrs := alSet ns.attrs attributeName "" }
              ops := st.ops ++ [.setAttribute el attributeName ""] }
        | .bool false =>
          { st with
              host := alSet st.host el { ns with attrs := alDelete ns.attrs attributeName }
              ops := st.ops ++ [.removeAttribute el attributeName] }
        | .jsNull =>
          { st with
              host := alSet st.host el { ns with attrs := alDelete ns.attrs attributeName }
              ops := st.ops ++ [.removeAttribute el attributeName] }
        | .undef =>
          { st with
              host := alSet st.host el { ns with attrs := alDelete ns.attrs attributeName }
              ops := st.ops ++ [.removeAttribute el attributeName] }
        | v =>
          let newValue := jsToString v
          if alGet ns.attrs attributeName = some newValue then st
          else
            { st with
                host := alSet st.host el
                  { ns with attrs := alSet ns.attrs attributeName newValue }
                ops := st.ops ++ [.setAttribute el attributeName newValue] }

/-- `Renderer.renderAndInsertSingleItem` for a non-definition, non-node
value: recover the part index by searching the instance's (old) template for
a part whose `value` is `===` the new value (`?? -1`), unmount any child
recorded under that index, then write the text in place when the old node is
a text node with different content, else replace it with a fresh text node;
finally, when the recovered index is not `-1`, rebind that index's node and
delete its child entry. Returns (`newNode`, state afterwards). -/
def renderAndInsertSingleItemScalar (value : JSValue) (oldNode : Nat)
    (st : StC9) : Option Nat × StC9 :=
  match alGet st.host oldNode with
  | none => (none, st)
  | some ns =>
    if ¬ns.hasParent then (none, st)
    else
      let found := st.inst.template.find? (fun p => partValue p.2 = value)
      let index : Int :=
        match found with
        | some p => (p.1 : Int)
        | none => -1
      let st1 :=
        if st.inst.childInstanceIdxs.contains index then
          { st with
              unmountLog := st.unmountLog ++ [index]
              inst := { st.inst with
                childInstanceIdxs := st.inst.childInstanceIdxs.filter (fun j => j ≠ index) } }
        else st
      let textValue := jsToStringNullish value
      let step : Nat × StC9 :=
        if ns.isText then
          if ns.text ≠ textValue then
            (oldNode,
              { st1 with
                  host := alSet st1.host oldNode { ns with text := textValue }
                  ops := st1.ops ++ [.setTextContent oldNode textValue] })
          else (oldNode, st1)
        else
          let fresh := st1.nextNode
          (fresh,
            { st1 with
                host := alSet
                  (alSet st1.host oldNode { ns with hasParent := false })
                  fresh ⟨true, true, textValue, []⟩
                ops := st1.ops ++ [.replaceChild fresh oldNode]
                nextNode := st1.nextNode + 1 })
      match found with
      | some p =>
        (some step.1,
          { step.2 with
              inst := { step.2.inst with
                dynamicNodeMap := alSet step.2.inst.dynamicNodeMap p.1 step.1
                childInstanceIdxs :=
                  step.2.inst.childInstanceIdxs.filter (fun j => j ≠ (p.1 : Int)) } })
      | none => (some step.1, step.2)

/-- `Renderer.updateContent` for a scalar new value with no list anchors at
the index: look up the old bound node, bail out when it or its parent is
missing, unmount any child recorded at the loop index, run
`renderAndInsertSingleItem`, and rebind the loop index's node (deleting its
child entry when the node was reused). -/
def updateContentScalar (index : Nat) (value : JSValue) (st : StC9) : StC9 :=
  match alGet st.inst.dynamicNodeMap index with
  | none => st
  | some oldNode =>
    match alGet st.host oldNode with
    | none => st
    | some ns =>
      if ¬ns.hasParent then st
      else
        let st0 :=
          if st.inst.childInstanceIdxs.contains (index : Int) then
            { st with
                unmountLog := st.unmountLog ++ [(index : Int)]
                inst := { st.inst with
                  childInstanceIdxs :=
                    st.inst.childInstanceIdxs.filter (fun j => j ≠ (index : Int)) } }
          else st
        let r := renderAndInsertSingleItemScalar value oldNode st0
        match r.1 with
        | some newNode =>
          if newNode ≠ oldNode then
            { r.2 with
                inst := { r.2.inst with
                  dynamicNodeMap := alSet r.2.inst.dynamicNodeMap index newNode } }
          else
            { r.2 with
                inst := { r.2.inst with
                  dynamicNodeMap := alSet r.2.inst.dynamicNodeMap index oldNode
                  childInstanceIdxs :=
                    r.2.inst.childInstanceIdxs.filter (fun j => j ≠ (index : Int)) } }
        | none => r.2

/-- `Renderer.cleanupStalePart` restricted to the part shapes of this
fragment (no list anchors): unmount any child at the index, detach the
recorded listener when its element still has a parent and delete the record,
remove a bound non-element node with a parent for content parts, and drop
the index's node binding. -/
def cleanupStalePart (index : Nat) (staleType : PartKind) (st : StC9) : StC9 :=
  let st1 :=
    if st.inst.childInstanceIdxs.contains (index : Int) then
      { st with
          unmountLog := st.unmountLog ++ [(index : Int)]
          inst := { st.inst with
            childInstanceIdxs :=
              st.inst.childInstanceIdxs.filter (fun j => j ≠ (index : Int)) } }
    else st
  let st2 :=
    match alGet st1.inst.eventListenerMap index with
    | some l =>
      let detached :=
        match alGet st1.host l.elementId with
        | some ns =>
          if ns.hasParent then
            { st1 with
                ops := st1.ops
                  ++ [HostOp.removeEventListener l.elementId (l.eventName.drop 2) l.handlerId] }
          else st1
        | none => st1
      { detached with
          inst := { detached.inst with
            eventListenerMap := alDelete detached.inst.eventListenerMap index } }
    | none => st1
  let st3 :=
    match alGet st2.inst.dynamicNodeMap index with
    | some nd =>
      match alGet st2.host nd with
      | some ns =>
        if ns.isText ∧ ns.hasParent ∧ staleType = PartKind.content then
          { st2 with
              host := alSet st2.host nd { ns with hasParent := false }
              ops := st2.ops ++ [HostOp.removeChild nd] }
        else st2
      | none => st2
    | none => st2
  { st3 with
      inst := { st3.inst with dynamicNodeMap := alDelete st3.inst.dynamicNodeMap index } }

/-- The index-keyed map `new Map(parts.map(p => [p.index, p]))`. -/
def partsMapOf (tpl : List (Nat × PartC9)) : List (Nat × PartC9) :=
  tpl.foldl (fun m p => alSet m p.1 p.2) []

/-- One iteration of `Renderer.update`'s index loop: patch same-kind pairs
with the kind's updater, tear down kind-changed or removed parts. -/
def updateC9Step (oldPartsMap newPartsMap : List (Nat × PartC9)) (s : StC9)
    (idx : Nat) : StC9 :=
  match alGet oldPartsMap idx, alGet newPartsMap idx with
  | some oldPart, some newPart =>
    if partType newPart ≠ partType oldPart then
      cleanupStalePart idx (partType oldPart) s
    else
      match newPart with
      | .event en h => updateEvent idx en h s
      | .attribute an v => updateAttributePart idx an v s
      | .content v => updateContentScalar idx v s
  | some oldPart, none => cleanupStalePart idx (partType oldPart) s
  | none, _ => s

/-- `Renderer.update`: build index-keyed maps of the old and new dynamic
parts, walk the union of their indices in first-occurrence order applying
`updateC9Step`, and finally replace the instance's `processedTemplate`. -/
def updateC9 (newTemplate : List (Nat × PartC9)) (st : StC9) : StC9 :=
  let stepped := (dedupFirst (alKeys (partsMapOf st.inst.template)
      ++ alKeys (partsMapOf newTemplate))).foldl
    (updateC9Step (partsMapOf st.inst.template) (partsMapOf newTemplate)) st
  { stepped with inst := { stepped.inst with template := newTemplate } }

/-! ## Well-formedness of a mounted instance fragment (for C9)

These predicates say the instance is in the state mount/update leaves it in:
each event part's listener record matches the part, each attribute part's
(compiler-string-coerced) value is currently set on its bound element, each
content part's bound node is a text node holding its rendered text, and — the
claim-critical proviso — the by-value part search resolves each content part
to its own index. -/

def partWF (st : StC9) (i : Nat) (p : PartC9) : Bool :=
  match p with
  | .event en h =>
    (en ≠ "" : Bool) &&
      (match alGet st.inst.eventListenerMap i with
       | some l => l.eventName == en && l.handlerId == h
       | none => false)
  | .attribute an v =>
    (an ≠ "" : Bool) &&
      (match v, alGet st.inst.dynamicNodeMap i with
       | .str s, some el =>
         (match alGet st.host el with
          | some ns => !ns.isText && (alGet ns.attrs an == some s)
          | none => false)
       | _, _ => false)
  | .content v =>
    (match alGet st.inst.dynamicNodeMap i with
     | some nd =>
       (match alGet st.host nd with
        | some ns => ns.isText && ns.hasParent && (ns.text == jsToStringNullish v)
        | none => false)
     | none => false)
    && ((st.inst.template.find? (fun q => partValue q.2 = v)).map (·.1) == some i)

def instWF (st : StC9) : Bool :=
  st.inst.childInstanceIdxs.isEmpty
    && decide (alKeys st.inst.dynamicNodeMap).Nodup
    && st.inst.template.all (fun p => partWF st p.1 p.2)

/-! ## Concrete inputs used by witnesses and counterexamples -/

/-- Two content parts holding the same scalar value `"x"`. -/
def dupTemplateC9 : List (Nat × PartC9) :=
  [(0, .content (.str "x")), (1, .content (.str "x"))]

/-- A mounted instance with the duplicate-value template: index 0 bound to
text node 10, index 1 to text node 11, both rendered as `"x"`. -/
def dupStateC9 : StC9 :=
  { inst := { template := dupTemplateC9
              dynamicNodeMap := [(0, 10), (1, 11)]
              eventListenerMap := []
              childInstanceIdxs := [] }
    host := [(10, ⟨true, true, "x", []⟩), (11, ⟨true, true, "x", []⟩)]
    ops := []
    unmountLog := []
    nextNode := 100 }

/-- An event + attribute + scalar-content template with distinct values. -/
def wfTemplateC9 : List (Nat × PartC9) :=
  [(0, .event "onclick" 7), (1, .attribute "class" (.str "light")),
   (2, .content (.str "5"))]

/-- A well-formed mounted instance for `wfTemplateC9`. -/
def wfStateC9 : StC9 :=
  { inst := { template := wfTemplateC9
              dynamicNodeMap := [(0, 20), (1, 21), (2, 22)]
              eventListenerMap := [(0, ⟨20, "onclick", 7⟩)]
              childInstanceIdxs := [] }
    host := [(20, ⟨false, true, "", []⟩),
             (21, ⟨false, true, "", [("class", "light")]⟩),
             (22, ⟨true, true, "5", []⟩)]
    ops := []
    unmountLog := []
    nextNode := 100 }

/-- The C4 failing input: a child mounted at content index 0 from definition
object 100 (component function 5, props object 200), and a re-render
supplying a fresh definition object 101 with the same component function and
different props object 201. -/
def failingInstC4 : InstC4 :=
  { template := [(0, ⟨100, 5, 200⟩)]
    childInstanceMap := [((0 : Int), ⟨1, ⟨100, 5, 200⟩, 10⟩)]
    dynamicNodeMap := [((0 : Int), 10)]
    rerenderLog := []
    unmountLog := []
    nextInstId := 2
    nextNodeId := 50 }

/-- A function table for the state-manager witnesses: function 3 maps the
absent previous value (`undefined`) to 7. -/
def tblW : Nat → JSValue → JSValue := fun i v =>
  if i = 3 then (match v with | .undef => .int 7 | _ => .int 0) else (.undef : JSValue)

/-- A trivial function table (no updater functions are ever applied). -/
def tbl0 : Nat → JSValue → JSValue := fun _ _ => (.undef : JSValue)

/-- A callback table for the effect witnesses: callbacks return no cleanup. -/
def cbRun0 : Nat → Option Nat := fun _ => none

/-- An effect record reached by registering deps `[1]` and running the
slot once, so its committed `previousDeps` equal its registered `deps`. -/
def effectRecordW : EffectRecord :=
  runEffectRecord cbRun0 (registerEffectRecord none 0 (some [JSValue.int 1]))

/-- A visibly destructive update function for the C2 witness: were it
invoked, the instance's recorded state would change. -/
def updateW : InstanceRecordC2 → Nat → InstanceRecordC2 := fun r _ =>
  { r with dynamicNodeMap := [], eventListenerMap := [] }

/-- A concrete mounted-instance record for the C2 witness. -/
def instRecordW : InstanceRecordC2 :=
  { processedTemplate := [(0, .content)]
    dynamicNodeMap := [(0, 3)]
    eventListenerMap := [(0, (3, "onclick", 7))]
    childInstanceMap := [(1, 9)] }

/-- A two-level instance tree for the C8 counterexample and C5/C8 witnesses. -/
def unmountTreeW : UInst :=
  .mk 1 [⟨30, "onclick", 7⟩] [5]
    [.mk 2 [] [6] [] []]
    [.mk 3 [] [7] [] []]

/-! ## Association-list lemmas -/

theorem alGet_alSet_self {κ α : Type} [DecidableEq κ] (l : List (κ × α)) (k : κ)
    (v : α) : alGet (alSet l k v) k = some v := by
  unfold alGet alSet
  by_cases h : l.any (fun p => p.1 = k)
  · rw [if_pos h]
    induction l with
    | nil => simp at h
    | cons p tl ih =>
      by_cases hp : p.1 = k
      · simp [List.find?_cons, hp]
      · simp only [List.any_cons, decide_eq_true_eq, Bool.or_eq_true] at h
        rcases h with h | h
        · exact absurd h hp
        · simp only [List.map_cons, List.find?_cons, if_neg hp]
          have := ih (by simpa using h)
          simpa [hp] using this
  · rw [if_neg h]
    induction l with
    | nil => simp [List.find?_cons]
    | cons p tl ih =>
      simp only [List.any_cons, Bool.or_eq_true, decide_eq_true_eq, not_or] at h
      simp only [List.cons_append, List.find?_cons, if_neg h.1]
      have := ih (by simpa using h.2)
      simpa [h.1] using this

theorem alGet_alSet_ne {κ α : Type} [DecidableEq κ] (l : List (κ × α)) (k k' : κ)
    (v : α) (hne : k' ≠ k) : alGet (alSet l k v) k' = alGet l k' := by
  have hkk' : ¬(k = k') := fun h => hne h.symm
  unfold alGet alSet
  by_cases h : l.any (fun p => p.1 = k)
  · rw [if_pos h]
    clear h
    induction l with
    | nil => simp
    | cons p tl ih =>
      by_cases hp : p.1 = k
      · rw [List.map_cons, if_pos hp,
          List.find?_cons_of_neg _ (by simpa using hkk'),
          List.find?_cons_of_neg _ (by simp [hp]; exact hkk')]
        exact ih
      · rw [List.map_cons, if_neg hp]
        by_cases hk' : p.1 = k'
        · rw [List.find?_cons_of_pos _ (by simpa using hk'),
            List.find?_cons_of_pos _ (by simpa using hk')]
        · rw [List.find?_cons_of_neg _ (by simpa using hk'),
            List.find?_cons_of_neg _ (by simpa using hk')]
          exact ih
  · rw [if_neg h, List.find?_append]
    have hsingle : List.find? (fun p => p.1 = k') [(k, v)] = none := by
      simp [hkk']
    rw [hsingle, Option.or_none]

theorem alAny_of_alGet_some {κ α : Type} [DecidableEq κ] {l : List (κ × α)}
    {k : κ} {v : α} (hget : alGet l k = some v) :
    l.any (fun p => p.1 = k) = true := by
  unfold alGet at hget
  have hsome : (l.find? (fun p => p.1 = k)).isSome = true := by
    cases hfind : l.find? (fun p => p.1 = k) with
    | none => rw [hfind] at hget; simp at hget
    | some q => rfl
  rw [List.any_eq_true]
  simpa using List.find?_isSome.mp hsome

/-- `Map.set` with the value a key already holds leaves the map unchanged,
provided the keys are unique. -/
theorem alSet_eq_self {κ α : Type} [DecidableEq κ] (l : List (κ × α)) (k : κ)
    (v : α) (hnodup : (alKeys l).Nodup) (hget : alGet l k = some v) :
    alSet l k v = l := by
  induction l with
  | nil => simp [alGet] at hget
  | cons p tl ih =>
    rw [alKeys, List.map_cons, List.nodup_cons] at hnodup
    by_cases hp : p.1 = k
    · have hv : p.2 = v := by
        have h2 := hget
        simp [alGet, List.find?_cons, hp] at h2
        exact h2
      unfold alSet
      rw [if_pos (by simp [List.any_cons, hp])]
      simp only [List.map_cons, if_pos hp]
      have hhead : (k, v) = p := by rw [← hp, ← hv]
      have hmap : tl.map (fun q => if q.1 = k then (k, v) else q) = tl := by
        have : ∀ q ∈ tl, (fun q => if q.1 = k then (k, v) else q) q = id q := by
          intro q hq
          have hqk : q.1 ≠ k := by
            intro hqk
            exact hnodup.1 (by
              rw [hp]
              exact hqk ▸ List.mem_map_of_mem (fun r => r.1) hq)
          simp [hqk]
        rw [List.map_congr_left this, List.map_id]
      rw [hmap, hhead]
    · have hgetl : alGet tl k = some v := by
        simpa [alGet, List.find?_cons, hp] using hget
      have hanytl : tl.any (fun q => q.1 = k) = true := alAny_of_alGet_some hgetl
      unfold alSet
      rw [if_pos (by simp [List.any_cons, hanytl])]
      simp only [List.map_cons, if_neg hp]
      congr 1
      have htail := ih hnodup.2 hgetl
      unfold alSet at htail
      rw [if_pos hanytl] at htail
      exact htail

/-! ## Claim C1 -/

/-- Claim C1 (counterexample): the coercion rule does not hold end to end
through the compiler. A boolean `true` attribute expression reaches the
element as the string value `"true"` — not as a presence-only attribute with
the empty value — because `createAttributeMetadata` stores
`String(expression)`; likewise `null` yields the attribute set to `"null"`
rather than absent, on the mount path and on the update path. -/
theorem attributeCoercion_counterexample :
    mountAttributeEndToEnd (.bool true) = some "true"
    ∧ mountAttributeEndToEnd (.bool true) ≠ some ""
    ∧ mountAttributeEndToEnd .jsNull = some "null"
    ∧ mountAttributeEndToEnd .jsNull ≠ none
    ∧ updateAttributeEndToEnd none (.bool false) = some "false" := by
  refine ⟨rfl, ?_, rfl, ?_, rfl⟩ <;> decide

/-- Claim C1 (amended): the Renderer's `applyAttributePart`/`updateAttribute`
do implement the claimed coercion rule for the part value they receive
(boolean `true` → presence-only, `false`/`null`/`undefined` → absent, else
string-coerced); but the compiler's `createAttributeMetadata` string-coerces
the expression first, so end to end through the compiler every attribute
expression — booleans and nullish values included — is string-coerced and set
as the attribute value, on mount and on update alike. -/
theorem attributeCoercion_amended (e : JSValue) (current : Option String) :
    mountAttributeEndToEnd e = some (jsToString e)
    ∧ updateAttributeEndToEnd current e = some (jsToString e)
    ∧ applyAttributePart (.bool true) = some ""
    ∧ applyAttributePart (.bool false) = none
    ∧ applyAttributePart .jsNull = none
    ∧ applyAttributePart .undef = none
    ∧ (∀ s : String, applyAttributePart (.str s) = some s)
    ∧ updateAttribute current (.bool true) = some ""
    ∧ updateAttribute current (.bool false) = none
    ∧ updateAttribute current .jsNull = none
    ∧ updateAttribute current .undef = none := by
  refine ⟨rfl, ?_, rfl, rfl, rfl, rfl, fun s => rfl, rfl, rfl, rfl, rfl⟩
  show updateAttribute current (JSValue.str (jsToString e)) = some (jsToString e)
  by_cases h : current = some (jsToString e)
  · simp [updateAttribute, jsToString, h]
  · simp [updateAttribute, jsToString, h]

/-! ## Claim C4 -/

/-- Claim C4 (code bug, evaluated at the failing input): re-rendering a
content part whose new value is a fresh `ComponentDefinition` object with the
same component function (5) and different props: the reference search over
the old template misses (index `-1`), so instead of reusing child instance 1,
the Renderer mounts a brand-new instance 2 and records it under key `-1`; the
old child stays in `childInstanceMap`, nothing is unmounted, and no child
re-render is triggered. -/
theorem updateContentCompDef_failing_input :
    (updateContentCompDef 0 ⟨101, 5, 201⟩ failingInstC4).childInstanceMap
      = [((0 : Int), ⟨1, ⟨100, 5, 200⟩, 10⟩), ((-1 : Int), ⟨2, ⟨101, 5, 201⟩, 50⟩)]
    ∧ (updateContentCompDef 0 ⟨101, 5, 201⟩ failingInstC4).rerenderLog = []
    ∧ (updateContentCompDef 0 ⟨101, 5, 201⟩ failingInstC4).unmountLog = []
    ∧ (updateContentCompDef 0 ⟨101, 5, 201⟩ failingInstC4).nextInstId = 3 := by
  decide

/-! ## Claim C2 -/

/-- Claim C2 (confirmed): when the component function throws during
`triggerComponentRerender`, the empty `catch` swallows the exception, the
`finally` still pops the render context (the stack returns to its prior
state), `update` is never invoked so the instance's recorded state and host
tree are untouched, and no exception reaches the caller of the state setter
(the result is `Except.ok`). -/
theorem triggerComponentRerender_exception_safe {E PT Inst : Type}
    (update : Inst → PT → Inst) (componentFunction : Unit → Except E PT)
    (instanceId : Nat) (st : RerenderState PT Inst) (e : E)
    (h : componentFunction () = .error e) :
    triggerComponentRerender update componentFunction instanceId st = .ok st := by
  simp only [triggerComponentRerender, startComponentRender, finishComponentRender, h]
  simp only [List.isEmpty_eq_true, List.append_eq_nil, List.cons_ne_self, and_false,
    if_false, List.dropLast_concat]
  rfl

/-- Witness for C2 at a concrete throwing component function: the rerender
returns normally with the context stack and the instance record (all four
maps) unchanged, although the update function would have cleared them. -/
theorem triggerComponentRerender_exception_safe_witness :
    triggerComponentRerender updateW (fun _ => (Except.error "boom" : Except String Nat))
        4 ⟨[⟨9, 0⟩], instRecordW⟩
      = .ok ⟨[⟨9, 0⟩], instRecordW⟩ :=
  triggerComponentRerender_exception_safe updateW
    (fun _ => (Except.error "boom" : Except String Nat)) 4 ⟨[⟨9, 0⟩], instRecordW⟩ "boom" rfl

/-! ## Claim C3 -/

/-- Claim C3 (confirmed): a setter call on a registered instance always
returns normally having overwritten the stored slot value with the computed
next value, and appends exactly one synchronous rerender of that instance to
the rerender log — with no hypothesis relating the new value to the stored
one, so the re-render happens even when they are equal; a second setter call
in the same turn appends a second rerender (no coalescing). -/
theorem setState_unconditional_rerender (tbl : Nat → JSValue → JSValue)
    (registry : List Nat) (instanceId hookIndex : Nat)
    (initialValue newValue : JSValue)
    (store : List (Nat × List (Nat × JSValue))) (rerenderLog : List Nat)
    (h : instanceId ∈ registry) :
    setState tbl registry instanceId hookIndex initialValue newValue store rerenderLog
      = .ok (setStateStoreAfter tbl store instanceId hookIndex initialValue newValue,
             rerenderLog ++ [instanceId])
    ∧ alGet ((alGet (setStateStoreAfter tbl store instanceId hookIndex initialValue newValue)
          instanceId).getD []) hookIndex
        = some (setStateNewState tbl store instanceId hookIndex initialValue newValue)
    ∧ ∀ newValue2 log2,
        ∃ store3,
          setState tbl registry instanceId hookIndex initialValue newValue2
              (setStateStoreAfter tbl store instanceId hookIndex initialValue newValue) log2
            = .ok (store3, log2 ++ [instanceId]) := by
  refine ⟨?_, ?_, ?_⟩
  · unfold setState setStateStoreAfter setStateNewState
    rw [if_pos h]
  · unfold setStateStoreAfter
    rw [alGet_alSet_self]
    simp only [Option.getD_some]
    rw [alGet_alSet_self]
  · intro newValue2 log2
    refine ⟨setStateStoreAfter tbl
      (setStateStoreAfter tbl store instanceId hookIndex initialValue newValue)
      instanceId hookIndex initialValue newValue2, ?_⟩
    unfold setState setStateStoreAfter setStateNewState
    rw [if_pos h]

/-- Witness for C3: the slot already stores 5, the setter is called with 5
(an equal value) — the store is still written and exactly one rerender
appended, and any further call appends another. -/
theorem setState_unconditional_rerender_witness :
    setState tbl0 [1] 1 0 (.int 5) (.int 5) [(1, [(0, JSValue.int 5)])] []
      = .ok (setStateStoreAfter tbl0 [(1, [(0, JSValue.int 5)])] 1 0 (.int 5) (.int 5),
             [] ++ [1])
    ∧ alGet ((alGet (setStateStoreAfter tbl0 [(1, [(0, JSValue.int 5)])] 1 0 (.int 5) (.int 5))
          1).getD []) 0
        = some (setStateNewState tbl0 [(1, [(0, JSValue.int 5)])] 1 0 (.int 5) (.int 5))
    ∧ ∀ newValue2 log2,
        ∃ store3,
          setState tbl0 [1] 1 0 (.int 5) newValue2
              (setStateStoreAfter tbl0 [(1, [(0, JSValue.int 5)])] 1 0 (.int 5) (.int 5)) log2
            = .ok (store3, log2 ++ [1]) :=
  setState_unconditional_rerender tbl0 [1] 1 0 (.int 5) (.int 5)
    [(1, [(0, JSValue.int 5)])] [] (by decide)

/-! ## Claim C7 -/

/-- Evaluation of `registerState` on a slot with no stored record: the
returned current value is the computed initial value, and the store is
unchanged except for ensuring the (empty) per-instance map. -/
theorem registerState_eval (tbl : Nat → JSValue → JSValue)
    (instanceId hookIndex : Nat) (initialValue : JSValue)
    (store : List (Nat × List (Nat × JSValue)))
    (h : alGet ((alGet store instanceId).getD []) hookIndex = none) :
    registerState tbl instanceId hookIndex initialValue store
      = ((if initialValue.isFunction then applyJS tbl initialValue .undef else initialValue),
         if alHas store instanceId then store else alSet store instanceId []) := by
  unfold registerState
  by_cases hh : alHas store instanceId = true
  · simp only [if_pos hh]
    rw [h]
    simp [h]
  · simp only [if_neg hh]
    rw [alGet_alSet_self]
    simp [alGet]

/-- Claim C7 (counterexample): the first `registerState` call for slot
`(1, 0)` with initial value 5 returns 5 to the component but writes nothing
into the state store — the slot has no stored value before any setter call,
contradicting the claim that the stored value exists and equals the computed
initial value. -/
theorem registerState_counterexample :
    (registerState tbl0 1 0 (.int 5) []).1 = .int 5
    ∧ alGet ((alGet (registerState tbl0 1 0 (.int 5) []).2 1).getD []) 0 = none := by
  refine ⟨rfl, rfl⟩

/-- Claim C7 (amended): the first `registerState` call for a slot computes
the initial value — applying the supplied updater to `undefined` when the
initial argument is a function, the value itself otherwise — and returns it
as the current value, but does not write it into the state store: after the
call the per-instance map exists while the slot itself still has no record
(it is first created lazily by the first setter call). -/
theorem registerState_first_amended (tbl : Nat → JSValue → JSValue)
    (instanceId hookIndex : Nat) (initialValue : JSValue)
    (store : List (Nat × List (Nat × JSValue)))
    (h : alGet ((alGet store instanceId).getD []) hookIndex = none) :
    (registerState tbl instanceId hookIndex initialValue store).1
      = (if initialValue.isFunction then applyJS tbl initialValue .undef else initialValue)
    ∧ alGet ((alGet (registerState tbl instanceId hookIndex initialValue store).2
          instanceId).getD []) hookIndex = none
    ∧ alHas (registerState tbl instanceId hookIndex initialValue store).2 instanceId
        = true := by
  rw [registerState_eval tbl instanceId hookIndex initialValue store h]
  refine ⟨rfl, ?_, ?_⟩
  · by_cases hh : alHas store instanceId = true
    · simp only [if_pos hh]
      exact h
    · simp only [if_neg hh]
      rw [alGet_alSet_self]
      simp [alGet]
  · by_cases hh : alHas store instanceId = true
    · simp only [if_pos hh]
      exact hh
    · simp only [if_neg hh]
      show (alSet store instanceId []).any (fun p => p.1 = instanceId) = true
      exact alAny_of_alGet_some (alGet_alSet_self store instanceId [])

/-- Witness for the amended C7 at a function-valued initial argument: the
updater (function 3) applied to `undefined` gives 7, which is returned, and
the slot remains without a stored record. -/
theorem registerState_first_amended_witness :
    (registerState tblW 2 0 (.fnRef 3) []).1 = .int 7
    ∧ alGet ((alGet (registerState tblW 2 0 (.fnRef 3) []).2 2).getD []) 0 = none
    ∧ alHas (registerState tblW 2 0 (.fnRef 3) []).2 2 = true := by
  have h := registerState_first_amended tblW 2 0 (.fnRef 3) [] rfl
  refine ⟨?_, h.2.1, h.2.2⟩
  rw [h.1]
  rfl

/-! ## Claim C10 -/

theorem processExpressionsLoop_ok (l : List (String × JSValue)) (i : Nat) (b : String)
    (h : processExpressionsLoop l i = .ok b) :
    b = ((l.enumFrom i).map
        (fun p => jsTrim p.2.1 ++ placeholderFor (classifySegment (jsTrim p.2.1)) p.1)).foldr
      (fun a b => a ++ b) "" := by
  induction l generalizing i b with
  | nil =>
    unfold processExpressionsLoop at h
    cases h
    rfl
  | cons p tl ih =>
    obtain ⟨s, e⟩ := p
    unfold processExpressionsLoop at h
    by_cases h1 : jsTrim s = ""
    · rw [if_pos h1] at h
      exact absurd h (by simp)
    · rw [if_neg h1] at h
      by_cases h2 : classifySegment (jsTrim s) = PartKind.event ∧ ¬e.isFunction = true
      · rw [if_pos h2] at h
        exact absurd h (by simp)
      · rw [if_neg h2] at h
        cases htl : processExpressionsLoop tl (i + 1) with
        | error msg =>
          rw [htl] at h
          exact absurd h (by simp [Bind.bind, Except.bind])
        | ok tail =>
          rw [htl] at h
          simp only [Bind.bind, Except.bind, Except.ok.injEq] at h
          rw [List.enumFrom_cons, List.map_cons, List.foldr_cons,
            ← ih (i + 1) tail htl, ← h]

/-- Claim C10 (confirmed): whenever `TemplateProcessor.process` succeeds, the
produced markup is exactly the concatenation of every static segment trimmed
of leading and trailing whitespace — the interior segments as much as the
final one — interleaved with the part placeholders, so no whitespace
adjacent to a dynamic-expression boundary survives into the markup. -/
theorem process_markup_trims_every_segment (staticStrings : List String)
    (expressions : List JSValue) (out : String)
    (h : process staticStrings expressions = .ok out) :
    out = markupSpec staticStrings expressions := by
  unfold process at h
  by_cases h0 : staticStrings.length = 0
  · rw [if_pos h0] at h
    exact absurd h (by simp)
  · rw [if_neg h0] at h
    by_cases h1 : staticStrings.length ≠ expressions.length + 1
    · rw [if_pos h1] at h
      exact absurd h (by simp)
    · rw [if_neg h1] at h
      cases hb : processExpressionsLoop (staticStrings.zip expressions) 0 with
      | error m =>
        rw [hb] at h
        exact absurd h (by simp [Bind.bind, Except.bind])
      | ok body =>
        rw [hb] at h
        simp only [Bind.bind, Except.bind, Except.ok.injEq] at h
        rw [← h, markupSpec, processExpressionsLoop_ok _ 0 body hb]

/-- Witness for C10: on a template whose first segment ends in a space and
whose last begins with one, the markup keeps neither. -/
theorem process_markup_trims_witness :
    "<p><!--placeholder-0--></p>" = markupSpec ["<p> ", " </p>"] [JSValue.int 3] :=
  process_markup_trims_every_segment ["<p> ", " </p>"] [JSValue.int 3]
    "<p><!--placeholder-0--></p>" (by rfl)

/-! ## Claim C6 -/

theorem zip_all_eq_iff : ∀ (l1 l2 : List JSValue), l1.length = l2.length →
    ((((l1.zip l2).all fun p => p.1 = p.2)) = true ↔ l1 = l2)
  | [], [], _ => by simp
  | [], _ :: _, h => by simp at h
  | _ :: _, [], h => by simp at h
  | a :: l1, b :: l2, h => by
    simp only [List.zip_cons_cons, List.all_cons, Bool.and_eq_true, decide_eq_true_eq,
      List.cons.injEq]
    have := zip_all_eq_iff l1 l2 (by simpa using h)
    rw [this]

/-- The source's shallow pairwise `Object.is` comparison succeeds exactly on
equal (in the `Object.is` sense, which this encoding makes structural)
dependency lists. -/
theorem shallowCompareArrays_eq_true_iff (a b : Option (List JSValue)) :
    shallowCompareArrays a b = true ↔ a = b := by
  cases a with
  | none => cases b <;> simp [shallowCompareArrays]
  | some l1 =>
    cases b with
    | none => simp [shallowCompareArrays]
    | some l2 =>
      show (if l1.length ≠ l2.length then false
        else (l1.zip l2).all fun p => p.1 = p.2) = true ↔ some l1 = some l2
      by_cases hlen : l1.length = l2.length
      · rw [if_neg (not_not_intro hlen)]
        rw [zip_all_eq_iff l1 l2 hlen]
        simp
      · rw [if_pos hlen]
        constructor
        · intro hf
          simp at hf
        · intro he
          exact absurd (by rw [Option.some_inj.mp he]) hlen

/-- For reachable effect records, a cleared `needExecuting` flag means the
registered `deps` coincide with the committed `previousDeps` (the run that
cleared the flag committed them, and every flag-preserving re-registration
kept them shallow-equal, hence equal). -/
theorem effectReachable_deps_eq (cbRun : Nat → Option Nat) (r : EffectRecord)
    (h : EffectReachable cbRun r) (hn : r.needExecuting = false) :
    r.deps = r.previousDeps := by
  induction h with
  | init cb deps => simp [registerEffectRecord] at hn
  | register r cb deps hr ih =>
    simp only [registerEffectRecord, Bool.or_eq_false_iff] at hn ⊢
    have hne : r.needExecuting = false := hn.1
    have hse : (if deps.isNone then true
        else !(shallowCompareArrays deps r.deps)) = false := hn.2
    by_cases hdn : deps.isNone = true
    · rw [if_pos hdn] at hse
      simp at hse
    · rw [if_neg hdn] at hse
      have : shallowCompareArrays deps r.deps = true := by
        cases hsc : shallowCompareArrays deps r.deps
        · rw [hsc] at hse
          simp at hse
        · rfl
      have hdeq : deps = r.deps := (shallowCompareArrays_eq_true_iff _ _).mp this
      rw [hdeq]
      exact ih hne
  | run r hr ih =>
    by_cases hne : r.needExecuting = true
    · simp [runEffectRecord, hne]
    · have hne' : r.needExecuting = false := by
        cases h : r.needExecuting
        · rfl
        · exact absurd h hne
      simp only [runEffectRecord, hne', Bool.false_eq_true, if_false]
      exact ih hne'

/-- Claim C6 (confirmed): for every reachable effect slot record, a
re-registration replaces the stored callback and deps with the new ones and
sets `needExecuting` to (old `needExecuting` OR `shouldRun`), where
`shouldRun` is true exactly when the deps argument is absent or fails the
shallow pairwise comparison against the slot's previously committed deps
(`previousDeps`, the deps recorded when the effect last ran); the flag stays
set across further registrations until `runEffects` executes the slot, which
clears it. -/
theorem registerEffect_refreshes_and_accumulates (cbRun : Nat → Option Nat)
    (r : EffectRecord) (cb : Nat) (deps : Option (List JSValue))
    (h : EffectReachable cbRun r) :
    registerEffectRecord (some r) cb deps
      = { r with callbackId := cb, deps := deps
                 needExecuting := r.needExecuting || specShouldRun deps r }
    ∧ (r.needExecuting = true →
        (registerEffectRecord (some r) cb deps).needExecuting = true)
    ∧ (runEffectRecord cbRun (registerEffectRecord (some r) cb deps)).needExecuting
        = false := by
  have hmain : registerEffectRecord (some r) cb deps
      = { r with callbackId := cb, deps := deps
                 needExecuting := r.needExecuting || specShouldRun deps r } := by
    cases hne : r.needExecuting
    · have hdeq := effectReachable_deps_eq cbRun r h hne
      simp only [registerEffectRecord, specShouldRun, hne, Bool.false_or]
      by_cases hdn : deps.isNone = true
      · simp [hdn]
      · simp only [if_neg hdn, Bool.false_or,
          (Bool.not_eq_true' _).symm]
        rw [hdeq]
        simp [hdn]
    · simp [registerEffectRecord, specShouldRun, hne]
  refine ⟨hmain, ?_, ?_⟩
  · intro hne
    rw [hmain]
    simp [hne]
  · rw [hmain]
    cases hflag : r.needExecuting || specShouldRun deps r
    · simp [runEffectRecord, hflag]
    · simp [runEffectRecord, hflag]

/-- Witness for C6: a slot registered with deps `[1]` and run once (so deps
`[1]` are committed), then re-registered with callback 1 and deps `[2]`. -/
theorem registerEffect_refreshes_witness :
    registerEffectRecord (some effectRecordW) 1 (some [JSValue.int 2])
      = { effectRecordW with
          callbackId := 1
          deps := some [JSValue.int 2]
          needExecuting := effectRecordW.needExecuting
            || specShouldRun (some [JSValue.int 2]) effectRecordW }
    ∧ (effectRecordW.needExecuting = true →
        (registerEffectRecord (some effectRecordW) 1 (some [JSValue.int 2])).needExecuting
          = true)
    ∧ (runEffectRecord cbRun0
        (registerEffectRecord (some effectRecordW) 1 (some [JSValue.int 2]))).needExecuting
        = false :=
  registerEffect_refreshes_and_accumulates cbRun0 effectRecordW 1 (some [JSValue.int 2])
    (EffectReachable.run _ (EffectReachable.init 0 (some [JSValue.int 1])))

/-! ## Claim C8 -/

theorem registryRemovals_append (a b : List TeardownEvent) :
    registryRemovals (a ++ b) = registryRemovals a ++ registryRemovals b := by
  unfold registryRemovals
  exact List.filterMap_append a b _

theorem registryRemovals_detach (i : Nat) (ls : List ListenerRecord) :
    registryRemovals (ls.map (fun l => .detachListener i l)) = [] := by
  unfold registryRemovals
  rw [List.filterMap_map]
  exact List.filterMap_eq_nil_iff.mpr (fun a _ => rfl)

theorem registryRemovals_roots (i : Nat) (roots : List Nat) :
    registryRemovals (roots.map (fun n => .removeRootNode i n)) = [] := by
  unfold registryRemovals
  rw [List.filterMap_map]
  exact List.filterMap_eq_nil_iff.mpr (fun a _ => rfl)

mutual

theorem registryRemovals_unmountTrace : ∀ (u : UInst),
    registryRemovals (unmountTrace u) = postorderIds u
  | .mk i ls roots cs lcs => by
    unfold unmountTrace postorderIds
    rw [registryRemovals_append, registryRemovals_append, registryRemovals_append,
      registryRemovals_append, registryRemovals_unmountTraceList cs,
      registryRemovals_unmountTraceList lcs, registryRemovals_detach,
      registryRemovals_roots]
    simp [registryRemovals]

theorem registryRemovals_unmountTraceList : ∀ (l : List UInst),
    registryRemovals (unmountTraceList l) = postorderIdsList l
  | [] => by
    unfold unmountTraceList postorderIdsList registryRemovals
    rfl
  | u :: us => by
    unfold unmountTraceList postorderIdsList
    rw [registryRemovals_append, registryRemovals_unmountTrace u,
      registryRemovals_unmountTraceList us]

end

mutual

theorem effectStore_unmountInst : ∀ (u : UInst) (s : Stores),
    (unmountInst u s).effectStore = s.effectStore
  | .mk i ls roots cs lcs, s => by
    unfold unmountInst
    show (unmountInstList lcs (unmountInstList cs s)).effectStore = s.effectStore
    rw [effectStore_unmountInstList lcs, effectStore_unmountInstList cs]

theorem effectStore_unmountInstList : ∀ (l : List UInst) (s : Stores),
    (unmountInstList l s).effectStore = s.effectStore
  | [], _ => rfl
  | u :: us, s => by
    unfold unmountInstList
    rw [effectStore_unmountInstList us, effectStore_unmountInst u]

end

mutual

theorem mem_registry_unmountInst : ∀ (u : UInst) (s : Stores) (x : Nat),
    x ∈ (unmountInst u s).registry ↔ x ∈ s.registry ∧ x ∉ postorderIds u
  | .mk i ls roots cs lcs, s, x => by
    unfold unmountInst postorderIds
    simp only [List.mem_filter, decide_eq_true_eq]
    rw [mem_registry_unmountInstList lcs, mem_registry_unmountInstList cs]
    simp only [List.mem_append, List.mem_singleton]
    tauto

theorem mem_registry_unmountInstList : ∀ (l : List UInst) (s : Stores) (x : Nat),
    x ∈ (unmountInstList l s).registry ↔ x ∈ s.registry ∧ x ∉ postorderIdsList l
  | [], s, x => by
    unfold unmountInstList postorderIdsList
    simp
  | u :: us, s, x => by
    unfold unmountInstList postorderIdsList
    rw [mem_registry_unmountInstList us, mem_registry_unmountInst u]
    simp only [List.mem_append]
    tauto

end

mutual

theorem mem_stateStore_unmountInst : ∀ (u : UInst) (s : Stores) (x : Nat),
    x ∈ (unmountInst u s).stateStore ↔ x ∈ s.stateStore ∧ x ∉ postorderIds u
  | .mk i ls roots cs lcs, s, x => by
    unfold unmountInst postorderIds
    simp only [List.mem_filter, decide_eq_true_eq]
    rw [mem_stateStore_unmountInstList lcs, mem_stateStore_unmountInstList cs]
    simp only [List.mem_append, List.mem_singleton]
    tauto

theorem mem_stateStore_unmountInstList : ∀ (l : List UInst) (s : Stores) (x : Nat),
    x ∈ (unmountInstList l s).stateStore ↔ x ∈ s.stateStore ∧ x ∉ postorderIdsList l
  | [], s, x => by
    unfold unmountInstList postorderIdsList
    simp
  | u :: us, s, x => by
    unfold unmountInstList postorderIdsList
    rw [mem_stateStore_unmountInstList us, mem_stateStore_unmountInst u]
    simp only [List.mem_append]
    tauto

end

/-- Claim C8 (amended): `unmount` tears down strictly children before self —
the registry removals in its teardown trace are exactly the subtree ids in
postorder, the instance's own removal last; every listener recorded in
`eventListenerMap` is detached and every recorded root node removed; the
instance's (and all descendants') state records and registry entries are
released so that nothing of them remains registered; but the instance's
effect records are NOT released — the effect store is untouched. -/
theorem unmount_amended (u : UInst) (s : Stores) :
    (∀ x, x ∈ (unmountInst u s).registry ↔ x ∈ s.registry ∧ x ∉ postorderIds u)
    ∧ (∀ x, x ∈ (unmountInst u s).stateStore ↔ x ∈ s.stateStore ∧ x ∉ postorderIds u)
    ∧ (unmountInst u s).effectStore = s.effectStore
    ∧ registryRemovals (unmountTrace u) = postorderIds u
    ∧ (postorderIds u).getLast? = some u.id
    ∧ (∀ l ∈ u.listeners, TeardownEvent.detachListener u.id l ∈ unmountTrace u)
    ∧ (∀ n ∈ u.rootNodes, TeardownEvent.removeRootNode u.id n ∈ unmountTrace u) := by
  obtain ⟨i, ls, roots, cs, lcs⟩ := u
  refine ⟨fun x => mem_registry_unmountInst _ s x,
    fun x => mem_stateStore_unmountInst _ s x,
    effectStore_unmountInst _ s,
    registryRemovals_unmountTrace _, ?_, ?_, ?_⟩
  · unfold postorderIds
    exact List.getLast?_concat _
  · intro l hl
    unfold unmountTrace
    rw [List.mem_append, List.mem_append, List.mem_append, List.mem_append]
    exact Or.inl (Or.inl (Or.inr (List.mem_map_of_mem _ hl)))
  · intro n hn
    unfold unmountTrace
    rw [List.mem_append, List.mem_append, List.mem_append, List.mem_append]
    exact Or.inl (Or.inr (List.mem_map_of_mem _ hn))

/-- Claim C8 (counterexample): unmounting instance 1 (with children 2 and 3)
from stores in which all three ids hold state and ids 1, 2 hold effect
records releases the state records and registry entries, but the effect
store is left exactly as it was — the claim's "release of ... effect
records" does not happen, and the instance's effect records remain. -/
theorem unmount_counterexample :
    (unmountInst unmountTreeW ⟨[9, 1, 2, 3], [1, 2, 3], [1, 2]⟩).effectStore = [1, 2]
    ∧ (unmountInst unmountTreeW ⟨[9, 1, 2, 3], [1, 2, 3], [1, 2]⟩).stateStore = []
    ∧ (unmountInst unmountTreeW ⟨[9, 1, 2, 3], [1, 2, 3], [1, 2]⟩).registry = [9] := by
  refine ⟨rfl, rfl, rfl⟩

/-! ## Claim C5 -/

/-- The `renderAndInsertListItems` loop materializes the items into
consecutively allocated host nodes (in array order) and mounts one fresh,
consecutively numbered child instance per `ComponentDefinition` item. -/
theorem renderAndInsertListItems_spec : ∀ (items : List ListItem) (a : AllocSt),
    renderAndInsertListItems items a
      = (List.range' a.nextNode (totalNodeCount items),
         List.range' a.nextInst (totalCompCount items),
         ⟨a.nextNode + totalNodeCount items, a.nextInst + totalCompCount items⟩)
  | [], a => by
    unfold renderAndInsertListItems totalNodeCount totalCompCount
    simp
  | it :: rest, a => by
    unfold renderAndInsertListItems
    rw [renderAndInsertListItems_spec rest]
    cases it with
    | template n =>
      refine Prod.ext ?_ (Prod.ext ?_ ?_)
      · show List.range' a.nextNode n ++ List.range' (a.nextNode + n) (totalNodeCount rest)
            = List.range' a.nextNode (totalNodeCount (ListItem.template n :: rest))
        rw [List.range'_append_1]
        congr 1
        simp [totalNodeCount, itemNodeCount, Nat.add_comm]
      · show [] ++ List.range' a.nextInst (totalCompCount rest)
            = List.range' a.nextInst (totalCompCount (ListItem.template n :: rest))
        rw [List.nil_append]
        congr 1
        simp [totalCompCount, itemCompCount]
      · show (⟨a.nextNode + n + totalNodeCount rest,
               a.nextInst + totalCompCount rest⟩ : AllocSt)
            = ⟨a.nextNode + totalNodeCount (ListItem.template n :: rest),
               a.nextInst + totalCompCount (ListItem.template n :: rest)⟩
        simp only [totalNodeCount, totalCompCount, List.map_cons, List.sum_cons,
          itemNodeCount, itemCompCount, AllocSt.mk.injEq]
        omega
    | comp f p r =>
      refine Prod.ext ?_ (Prod.ext ?_ ?_)
      · show List.range' a.nextNode r ++ List.range' (a.nextNode + r) (totalNodeCount rest)
            = List.range' a.nextNode (totalNodeCount (ListItem.comp f p r :: rest))
        rw [List.range'_append_1]
        congr 1
        simp [totalNodeCount, itemNodeCount, Nat.add_comm]
      · show List.range' a.nextInst 1 ++ List.range' (a.nextInst + 1) (totalCompCount rest)
            = List.range' a.nextInst (totalCompCount (ListItem.comp f p r :: rest))
        rw [List.range'_append_1]
        congr 1
        simp [totalCompCount, itemCompCount, Nat.add_comm]
      · show (⟨a.nextNode + r + totalNodeCount rest,
               a.nextInst + 1 + totalCompCount rest⟩ : AllocSt)
            = ⟨a.nextNode + totalNodeCount (ListItem.comp f p r :: rest),
               a.nextInst + totalCompCount (ListItem.comp f p r :: rest)⟩
        simp only [totalNodeCount, totalCompCount, List.map_cons, List.sum_cons,
          itemNodeCount, itemCompCount, AllocSt.mk.injEq]
        omega
    | rawNode nd =>
      refine Prod.ext ?_ (Prod.ext ?_ ?_)
      · show List.range' a.nextNode 1 ++ List.range' (a.nextNode + 1) (totalNodeCount rest)
            = List.range' a.nextNode (totalNodeCount (ListItem.rawNode nd :: rest))
        rw [List.range'_append_1]
        congr 1
        simp [totalNodeCount, itemNodeCount, Nat.add_comm]
      · show [] ++ List.range' a.nextInst (totalCompCount rest)
            = List.range' a.nextInst (totalCompCount (ListItem.rawNode nd :: rest))
        rw [List.nil_append]
        congr 1
        simp [totalCompCount, itemCompCount]
      · show (⟨a.nextNode + 1 + totalNodeCount rest,
               a.nextInst + totalCompCount rest⟩ : AllocSt)
            = ⟨a.nextNode + totalNodeCount (ListItem.rawNode nd :: rest),
               a.nextInst + totalCompCount (ListItem.rawNode nd :: rest)⟩
        simp only [totalNodeCount, totalCompCount, List.map_cons, List.sum_cons,
          itemNodeCount, itemCompCount, AllocSt.mk.injEq]
        omega
    | scalar v =>
      refine Prod.ext ?_ (Prod.ext ?_ ?_)
      · show List.range' a.nextNode 1 ++ List.range' (a.nextNode + 1) (totalNodeCount rest)
            = List.range' a.nextNode (totalNodeCount (ListItem.scalar v :: rest))
        rw [List.range'_append_1]
        congr 1
        simp [totalNodeCount, itemNodeCount, Nat.add_comm]
      · show [] ++ List.range' a.nextInst (totalCompCount rest)
            = List.range' a.nextInst (totalCompCount (ListItem.scalar v :: rest))
        rw [List.nil_append]
        congr 1
        simp [totalCompCount, itemCompCount]
      · show (⟨a.nextNode + 1 + totalNodeCount rest,
               a.nextInst + totalCompCount rest⟩ : AllocSt)
            = ⟨a.nextNode + totalNodeCount (ListItem.scalar v :: rest),
               a.nextInst + totalCompCount (ListItem.scalar v :: rest)⟩
        simp only [totalNodeCount, totalCompCount, List.map_cons, List.sum_cons,
          itemNodeCount, itemCompCount, AllocSt.mk.injEq]
        omega

/-- Claim C5 (confirmed): a list-over-list content update clears everything
between the anchors, unmounts exactly the previously recorded child
instances, and re-materializes every new item freshly in array order: the
region afterwards holds exactly the consecutively allocated new nodes and
new child instances, none of which reuses any pre-existing node or
instance (ids below the allocator are untouched). -/
theorem updateContentList_whole_range (region : ListRegion) (items : List ListItem)
    (a : AllocSt)
    (hn : ∀ n ∈ region.betweenNodes, n < a.nextNode)
    (hi : ∀ j ∈ region.childInstances, j < a.nextInst) :
    (updateContentList region items a).2.1 = region.childInstances
    ∧ (updateContentList region items a).1.betweenNodes
        = List.range' a.nextNode (totalNodeCount items)
    ∧ (updateContentList region items a).1.childInstances
        = List.range' a.nextInst (totalCompCount items)
    ∧ (∀ n ∈ region.betweenNodes,
        n ∉ (updateContentList region items a).1.betweenNodes)
    ∧ (∀ j ∈ region.childInstances,
        j ∉ (updateContentList region items a).1.childInstances) := by
  unfold updateContentList
  rw [renderAndInsertListItems_spec items a]
  refine ⟨rfl, rfl, rfl, ?_, ?_⟩
  · intro n hmem hin
    rw [List.mem_range'_1] at hin
    exact absurd (hn n hmem) (by omega)
  · intro j hmem hin
    rw [List.mem_range'_1] at hin
    exact absurd (hi j hmem) (by omega)

/-- Witness for C5: a region holding nodes 3, 4, 5 and child instance 0 is
replaced by three items (a scalar, a component with two root nodes, a raw
node): the old child is unmounted, the region becomes the fresh nodes
10-13 with fresh child instance 7, disjoint from the old ones. -/
theorem updateContentList_whole_range_witness :
    (updateContentList ⟨[3, 4, 5], [0]⟩
        [.scalar (.str "a"), .comp 1 2 2, .rawNode 3] ⟨10, 7⟩).2.1 = [0]
    ∧ (updateContentList ⟨[3, 4, 5], [0]⟩
        [.scalar (.str "a"), .comp 1 2 2, .rawNode 3] ⟨10, 7⟩).1.betweenNodes
        = List.range' 10 (totalNodeCount [.scalar (.str "a"), .comp 1 2 2, .rawNode 3])
    ∧ (updateContentList ⟨[3, 4, 5], [0]⟩
        [.scalar (.str "a"), .comp 1 2 2, .rawNode 3] ⟨10, 7⟩).1.childInstances
        = List.range' 7 (totalCompCount [.scalar (.str "a"), .comp 1 2 2, .rawNode 3])
    ∧ (∀ n ∈ ([3, 4, 5] : List Nat),
        n ∉ (updateContentList ⟨[3, 4, 5], [0]⟩
          [.scalar (.str "a"), .comp 1 2 2, .rawNode 3] ⟨10, 7⟩).1.betweenNodes)
    ∧ (∀ j ∈ ([0] : List Nat),
        j ∉ (updateContentList ⟨[3, 4, 5], [0]⟩
          [.scalar (.str "a"), .comp 1 2 2, .rawNode 3] ⟨10, 7⟩).1.childInstances) :=
  updateContentList_whole_range ⟨[3, 4, 5], [0]⟩
    [.scalar (.str "a"), .comp 1 2 2, .rawNode 3] ⟨10, 7⟩
    (by decide) (by decide)

/-! ## Claim C9 -/

theorem foldl_fixed {β γ : Type} (f : β → γ → β) (b : β) (l : List γ)
    (h : ∀ x ∈ l, f b x = b) : l.foldl f b = b := by
  induction l with
  | nil => rfl
  | cons x xs ih =>
    rw [List.foldl_cons, h x (List.mem_cons_self x xs)]
    exact ih (fun y hy => h y (List.mem_cons_of_mem x hy))

theorem mem_dedupFirstAux {κ : Type} [DecidableEq κ] :
    ∀ (seen l : List κ) (x : κ), x ∈ dedupFirstAux seen l → x ∈ l
  | _, [], x, h => by simp [dedupFirstAux] at h
  | seen, y :: ys, x, h => by
    unfold dedupFirstAux at h
    by_cases hy : y ∈ seen
    · rw [if_pos hy] at h
      exact List.mem_cons_of_mem y (mem_dedupFirstAux seen ys x h)
    · rw [if_neg hy] at h
      rcases List.mem_cons.mp h with h | h
      · exact h ▸ List.mem_cons_self y ys
      · exact List.mem_cons_of_mem y (mem_dedupFirstAux (y :: seen) ys x h)

theorem mem_dedupFirst {κ : Type} [DecidableEq κ] (l : List κ) (x : κ)
    (h : x ∈ dedupFirst l) : x ∈ l :=
  mem_dedupFirstAux [] l x h

theorem alGet_isSome_of_mem_keys {κ α : Type} [DecidableEq κ] (l : List (κ × α))
    (k : κ) (h : k ∈ alKeys l) : (alGet l k).isSome = true := by
  unfold alKeys at h
  obtain ⟨p, hp, hpk⟩ := List.mem_map.mp h
  have hsome : (l.find? (fun q => q.1 = k)).isSome = true :=
    List.find?_isSome.mpr ⟨p, hp, by simp [hpk]⟩
  unfold alGet
  cases hf : l.find? (fun q => q.1 = k) with
  | none => rw [hf] at hsome; simp at hsome
  | some q => simp

theorem mem_of_alGet_foldl_alSet {κ α : Type} [DecidableEq κ] :
    ∀ (tpl m0 : List (κ × α)) (k : κ) (p : α),
      alGet (tpl.foldl (fun m q => alSet m q.1 q.2) m0) k = some p →
      (k, p) ∈ tpl ∨ alGet m0 k = some p
  | [], _, _, _, h => Or.inr h
  | q :: rest, m0, k, p, h => by
    rw [List.foldl_cons] at h
    rcases mem_of_alGet_foldl_alSet rest _ k p h with h1 | h1
    · exact Or.inl (List.mem_cons_of_mem q h1)
    · by_cases hk : k = q.1
      · subst hk
        rw [alGet_alSet_self] at h1
        cases h1
        exact Or.inl (by
          rw [show (q.1, q.2) = q from rfl]
          exact List.mem_cons_self q rest)
      · rw [alGet_alSet_ne _ _ _ _ hk] at h1
        exact Or.inr h1

theorem updateEvent_noop (st : StC9) (i : Nat) (en : String) (hd : Nat)
    (l : ListenerRecord) (hen : en ≠ "")
    (hl : alGet st.inst.eventListenerMap i = some l)
    (h1 : l.eventName = en) (h2 : l.handlerId = hd) :
    updateEvent i en hd st = st := by
  unfold updateEvent
  rw [if_neg hen, hl]
  simp [h1, h2]

theorem updateAttributePart_noop (st : StC9) (i : Nat) (an s : String) (el : Nat)
    (ns : NodeState) (hn : an ≠ "")
    (h1 : alGet st.inst.dynamicNodeMap i = some el)
    (h2 : alGet st.host el = some ns) (h3 : ns.isText = false)
    (h4 : alGet ns.attrs an = some s) :
    updateAttributePart i an (.str s) st = st := by
  unfold updateAttributePart
  simp only [h1, h2, h3, Bool.false_eq_true, if_false, if_neg hn, jsToString]
  simp [h4]

theorem renderAndInsertSingleItemScalar_noop (st : StC9) (i : Nat) (v : JSValue)
    (nd : Nat) (ns : NodeState) (p : Nat × PartC9)
    (hchild : st.inst.childInstanceIdxs = [])
    (hnodup : (alKeys st.inst.dynamicNodeMap).Nodup)
    (h1 : alGet st.inst.dynamicNodeMap i = some nd)
    (h2 : alGet st.host nd = some ns)
    (h3 : ns.isText = true) (h4 : ns.hasParent = true)
    (h5 : ns.text = jsToStringNullish v)
    (hp : st.inst.template.find? (fun q => partValue q.2 = v) = some p)
    (hpi : p.1 = i) :
    renderAndInsertSingleItemScalar v nd st = (some nd, st) := by
  obtain ⟨⟨tpl, dyn, elm, cidx⟩, host, ops, ulog, nn⟩ := st
  simp only at hchild hnodup h1 hp
  subst hchild
  subst hpi
  unfold renderAndInsertSingleItemScalar
  simp only [h2, h3, h4, h5, hp, not_true_eq_false, Bool.false_eq_true, if_false,
    if_true, List.contains_nil, ne_eq, not_true_eq_false, List.filter_nil]
  simp only [alSet_eq_self dyn p.1 nd hnodup h1, List.filter_nil]

theorem updateContentScalar_noop (st : StC9) (i : Nat) (v : JSValue)
    (nd : Nat) (ns : NodeState) (p : Nat × PartC9)
    (hchild : st.inst.childInstanceIdxs = [])
    (hnodup : (alKeys st.inst.dynamicNodeMap).Nodup)
    (h1 : alGet st.inst.dynamicNodeMap i = some nd)
    (h2 : alGet st.host nd = some ns)
    (h3 : ns.isText = true) (h4 : ns.hasParent = true)
    (h5 : ns.text = jsToStringNullish v)
    (hp : st.inst.template.find? (fun q => partValue q.2 = v) = some p)
    (hpi : p.1 = i) :
    updateContentScalar i v st = st := by
  have hr := renderAndInsertSingleItemScalar_noop st i v nd ns p hchild hnodup
    h1 h2 h3 h4 h5 hp hpi
  obtain ⟨⟨tpl, dyn, elm, cidx⟩, host, ops, ulog, nn⟩ := st
  simp only at hchild hnodup h1 hp hr
  subst hchild
  unfold updateContentScalar
  simp only [h1, h2, h4, not_true_eq_false, Bool.false_eq_true, if_false,
    List.contains_nil, hr, ne_eq, not_true_eq_false, List.filter_nil]
  simp only [alSet_eq_self dyn i nd hnodup h1]

/-- Claim C9 (amended): re-rendering a well-formed instance with a template
whose dynamic parts all equal the previous ones (identical handler
references and event names, equal compiler-string-coerced attribute values,
equal scalar content) is a strict no-op — zero host mutations and every
recorded binding unchanged — provided the by-value part lookup in
`renderAndInsertSingleItem` resolves each content part to its own index
(e.g. the content values are pairwise distinct); without that proviso the
host is still untouched but `dynamicNodeMap` entries can be rebound. -/
theorem update_idempotent_on_equal_parts (st : StC9) (hwf : instWF st = true) :
    updateC9 st.inst.template st = st := by
  unfold instWF at hwf
  simp only [Bool.and_eq_true, List.all_eq_true, List.isEmpty_iff,
    decide_eq_true_eq] at hwf
  obtain ⟨⟨hchild, hnodup⟩, hparts⟩ := hwf
  have hstep : ∀ idx ∈ dedupFirst (alKeys (partsMapOf st.inst.template)
      ++ alKeys (partsMapOf st.inst.template)),
      updateC9Step (partsMapOf st.inst.template) (partsMapOf st.inst.template) st idx
        = st := by
    intro idx hidx
    have hkeys : idx ∈ alKeys (partsMapOf st.inst.template) := by
      rcases List.mem_append.mp (mem_dedupFirst _ idx hidx) with h | h
      · exact h
      · exact h
    have hsome := alGet_isSome_of_mem_keys _ idx hkeys
    obtain ⟨part, hpart⟩ := Option.isSome_iff_exists.mp hsome
    have hmem : (idx, part) ∈ st.inst.template := by
      rcases mem_of_alGet_foldl_alSet st.inst.template [] idx part hpart with h | h
      · exact h
      · simp [alGet] at h
    have hwfp : partWF st idx part = true := hparts (idx, part) hmem
    unfold updateC9Step
    rw [hpart]
    cases part with
    | event en hd =>
      show updateEvent idx en hd st = st
      unfold partWF at hwfp
      simp only [Bool.and_eq_true, decide_eq_true_eq] at hwfp
      obtain ⟨hen, hrest⟩ := hwfp
      cases hl : alGet st.inst.eventListenerMap idx with
      | none => rw [hl] at hrest; simp at hrest
      | some l =>
        rw [hl] at hrest
        simp only [Bool.and_eq_true, beq_iff_eq] at hrest
        exact updateEvent_noop st idx en hd l hen hl hrest.1 hrest.2
    | «attribute» an v =>
      show updateAttributePart idx an v st = st
      unfold partWF at hwfp
      simp only [Bool.and_eq_true, decide_eq_true_eq] at hwfp
      obtain ⟨han, hrest⟩ := hwfp
      cases v with
      | str s =>
        cases hel : alGet st.inst.dynamicNodeMap idx with
        | none => rw [hel] at hrest; simp at hrest
        | some el =>
          rw [hel] at hrest
          have hrest2 : (match alGet st.host el with
              | some ns => !ns.isText && (alGet ns.attrs an == some s)
              | none => false) = true := hrest
          cases hns : alGet st.host el with
          | none => rw [hns] at hrest2; simp at hrest2
          | some ns =>
            rw [hns] at hrest2
            simp only [Bool.and_eq_true, Bool.not_eq_true', beq_iff_eq] at hrest2
            exact updateAttributePart_noop st idx an s el ns han hel hns
              hrest2.1 hrest2.2
      | undef => cases alGet st.inst.dynamicNodeMap idx <;> simp at hrest
      | jsNull => cases alGet st.inst.dynamicNodeMap idx <;> simp at hrest
      | bool b => cases alGet st.inst.dynamicNodeMap idx <;> simp at hrest
      | int n => cases alGet st.inst.dynamicNodeMap idx <;> simp at hrest
      | fnRef fid => cases alGet st.inst.dynamicNodeMap idx <;> simp at hrest
      | nodeRef nid => cases alGet st.inst.dynamicNodeMap idx <;> simp at hrest
      | objRef oid => cases alGet st.inst.dynamicNodeMap idx <;> simp at hrest
    | content v =>
      show updateContentScalar idx v st = st
      unfold partWF at hwfp
      simp only [Bool.and_eq_true, beq_iff_eq] at hwfp
      obtain ⟨hbind, hfind⟩ := hwfp
      cases hnd : alGet st.inst.dynamicNodeMap idx with
      | none => rw [hnd] at hbind; simp at hbind
      | some nd =>
        rw [hnd] at hbind
        have hbind2 : (match alGet st.host nd with
            | some ns => ns.isText && ns.hasParent && (ns.text == jsToStringNullish v)
            | none => false) = true := hbind
        cases hns : alGet st.host nd with
        | none => rw [hns] at hbind2; simp at hbind2
        | some ns =>
          rw [hns] at hbind2
          simp only [Bool.and_eq_true, beq_iff_eq] at hbind2
          obtain ⟨p, hp, hpi⟩ : ∃ p,
              st.inst.template.find? (fun q => partValue q.2 = v) = some p ∧ p.1 = idx := by
            cases hf : st.inst.template.find? (fun q => partValue q.2 = v) with
            | none => rw [hf] at hfind; simp at hfind
            | some p =>
              rw [hf] at hfind
              simp at hfind
              exact ⟨p, rfl, hfind⟩
          exact updateContentScalar_noop st idx v nd ns p hchild hnodup hnd hns
            hbind2.1.1 hbind2.1.2 hbind2.2 hp hpi
  have hfold := foldl_fixed
    (updateC9Step (partsMapOf st.inst.template) (partsMapOf st.inst.template)) st
    (dedupFirst (alKeys (partsMapOf st.inst.template)
      ++ alKeys (partsMapOf st.inst.template))) hstep
  calc updateC9 st.inst.template st
      = { (dedupFirst (alKeys (partsMapOf st.inst.template)
            ++ alKeys (partsMapOf st.inst.template))).foldl
            (updateC9Step (partsMapOf st.inst.template) (partsMapOf st.inst.template)) st with
          inst := { ((dedupFirst (alKeys (partsMapOf st.inst.template)
            ++ alKeys (partsMapOf st.inst.template))).foldl
            (updateC9Step (partsMapOf st.inst.template) (partsMapOf st.inst.template)) st).inst with
            template := st.inst.template } } := rfl
    _ = { st with inst := { st.inst with template := st.inst.template } } := by rw [hfold]
    _ = st := rfl

/-- Witness for the amended C9: a well-formed instance holding an event part
(`onclick`, handler 7), a string attribute part (`class="light"`) and a
scalar content part (`"5"`), re-rendered with equal parts, is left entirely
unchanged: same op trace, same host, same bindings. -/
theorem update_idempotent_witness :
    updateC9 wfStateC9.inst.template wfStateC9 = wfStateC9 :=
  update_idempotent_on_equal_parts wfStateC9 (by rfl)

/-- Claim C9 (counterexample): on an instance whose template has two content
parts with the same scalar value `"x"`, re-rendering with identical parts
performs zero host mutations, yet the node bound at index 0 changes from
node 10 to node 11 (the by-value lookup resolves index 1's part to index 0),
so the claim's "every bound node ... reference-identical before and after"
conjunct is false. -/
theorem update_rebinds_on_duplicate_values :
    (updateC9 dupStateC9.inst.template dupStateC9).ops = dupStateC9.ops
    ∧ alGet dupStateC9.inst.dynamicNodeMap 0 = some 10
    ∧ alGet (updateC9 dupStateC9.inst.template dupStateC9).inst.dynamicNodeMap 0
        = some 11
    ∧ updateC9 dupStateC9.inst.template dupStateC9 ≠ dupStateC9 := by
  refine ⟨rfl, rfl, rfl, ?_⟩
  decide

end MiniReact
